import Mathlib

/-! # USB-MIDI class driver (`libraries/USBH_MIDI/usbh_midi.cpp`)

A shallow embedding of the packet codec (`SendData`, `SendDataMulti`, `RcvData`), of the
descriptor scanner (`parseConfigDescr`) and of the connection setup (`Init`, `Release`) of the
driver, followed by the properties proved about them.

Conventions of the embedding:

* `uint8_t`/`byte` values are natural numbers; a store into a byte that can exceed 255 is
  written with an explicit `% 256`.
* A C buffer is a `List Nat`; a pointer into it is an offset. A read or write outside the
  buffer is undefined behaviour in C and is reported as `Fault.outOfBounds`.
* Every loop takes a `fuel` argument; running out of it is reported as `Fault.outOfFuel`.
* The USB host library (`class USB`) is not part of the sources. It is represented by the
  structures `USB` and `Host`, which hold what the library answers to the calls the driver
  makes, and by `World`, the part of its state that `Init` and `Release` change.
-/

set_option maxRecDepth 8192

namespace USBH_MIDI

/-! ## Memory and the transport -/

/-- The two ways in which a run of the embedded code can fail to produce a result. -/
inductive Fault where
  | outOfBounds
  | outOfFuel
  deriving DecidableEq, Repr

/-- Byte read `buf[i]`. -/
def rd (buf : List Nat) (i : Nat) : Except Fault Nat :=
  match buf[i]? with
  | some b => .ok b
  | none => .error .outOfBounds

/-- Byte store `buf[i] = v`. -/
def wr (buf : List Nat) (i : Nat) (v : Nat) : Except Fault (List Nat) :=
  if i < buf.length then .ok (buf.set i v) else .error .outOfBounds

/-- Record `EpInfo` of the host library: one entry of the endpoint table. Both `epAddr` and
`maxPktSize` are `uint8_t` fields. -/
structure EpInfo where
  epAddr : Nat
  maxPktSize : Nat
  epAttribs : Nat
  bmNakPower : Nat
  deriving DecidableEq, Repr

/-- The arguments of one `pUsb->outTransfer(addr, ep, nbytes, data)` call. -/
structure OutCall where
  addr : Nat
  ep : Nat
  nbytes : Nat
  data : List Nat
  deriving DecidableEq, Repr

/-- What the host library answers to the driver (the library itself is not part of the sources).

* `outTransfer n` is the status returned by the `n`-th `outTransfer` call (counting from 0);
* `inTransfer addr ep nbytes` is the status, the received byte count and the content of the
  receive buffer after `inTransfer(addr, ep, &nbytes, buffer)`;
* `getConfDescr addr ep nbytes conf` is the status and the content of the descriptor buffer
  after `getConfDescr(addr, ep, nbytes, conf, buffer)`. -/
structure USB where
  outTransfer : Nat → Nat
  inTransfer : Nat → Nat → Nat → Nat × Nat × List Nat
  getConfDescr : Nat → Nat → Nat → Nat → Nat × List Nat

/-- The data members of `class MIDI` that the embedded functions use. `epInfo` is the array
`epInfo[MIDI_MAX_ENDPOINTS]`, indexed by the role constants below. -/
structure MIDI where
  bAddress : Nat
  bConfNum : Nat
  bNumEP : Nat
  bPollEnable : Bool
  isMidiFound : Bool
  pid : Nat
  vid : Nat
  epInfo : Nat → EpInfo

/-- `const uint8_t MIDI::epDataInIndex = 1;` -/
def epDataInIndex : Nat := 1
/-- `const uint8_t MIDI::epDataOutIndex = 2;` -/
def epDataOutIndex : Nat := 2
/-- `const uint8_t MIDI::epDataInIndexVSP = 3;` -/
def epDataInIndexVSP : Nat := 3
/-- `const uint8_t MIDI::epDataOutIndexVSP = 4;` -/
def epDataOutIndexVSP : Nat := 4

/-- The arguments of `pUsb->outTransfer(bAddress, epInfo[epDataOutIndex].epAddr, 4, buf)`. -/
def packetCall (m : MIDI) (buf : List Nat) : OutCall :=
  OutCall.mk m.bAddress (m.epInfo epDataOutIndex).epAddr 4 buf

/-- The call `pUsb->outTransfer(bAddress, epInfo[epDataOutIndex].epAddr, 4, buf)`: the call is
appended to the log of transfers and the status of this call is returned. -/
def outTransfer4 (usb : USB) (m : MIDI) (buf : List Nat) (log : List OutCall) :
    Nat × List OutCall :=
  (usb.outTransfer log.length, log ++ [packetCall m buf])

/-! ## Packet codec: encoding -/

/-- The locals `buf`, `i` and the position of `dataptr` in `SendDataMulti`. -/
structure MultiLocals where
  buf : List Nat
  i : Nat
  dataptr : Nat
  deriving DecidableEq, Repr

/-- The loop `for(...; i<=3; i++){ buf[i] = 0; }` of `SendDataMulti`, entered after its
initialiser `i=i+1`. -/
def zeroFill : Nat → MultiLocals → Except Fault MultiLocals
  | 0, _ => .error .outOfFuel
  | fuel + 1, s =>
    if s.i ≤ 3 then
      zeroFill fuel { s with buf := s.buf.set s.i 0, i := (s.i + 1) % 256 }
    else
      .ok s

/-- The loop `for(...; i<=3; i++){ ... }` of `SendDataMulti` that fills one packet, entered
after its initialiser `i=1`. -/
def fillGroup (data : List Nat) (nCable : Nat) : Nat → MultiLocals → Except Fault MultiLocals
  | 0, _ => .error .outOfFuel
  | fuel + 1, s =>
    if s.i ≤ 3 then do
      let b ← rd data s.dataptr
      let s1 : MultiLocals := { s with buf := s.buf.set s.i b }
      if b = 0xf7 then do
        let s2 : MultiLocals :=
          { s1 with buf := s1.buf.set 0 (((nCable <<< 4) ||| (0x4 + s1.i)) % 256) }
        let s3 ← zeroFill fuel { s2 with i := (s2.i + 1) % 256 }
        let s4 : MultiLocals := { s3 with i := 0xfe }
        fillGroup data nCable fuel { s4 with i := (s4.i + 1) % 256 }
      else
        let s2 : MultiLocals := { s1 with dataptr := s1.dataptr + 1 }
        fillGroup data nCable fuel { s2 with i := (s2.i + 1) % 256 }
    else
      .ok s

/-- The loop `while(i < 0xff) { ... }` of `SendDataMulti`. `rc` is the local of that name; the
result is the value of `rc` when the loop is left, with the log of transfers. -/
def sendLoop (usb : USB) (m : MIDI) (data : List Nat) (nCable : Nat) :
    Nat → MultiLocals → Nat → List OutCall → Except Fault (Nat × List OutCall)
  | 0, _, _, _ => .error .outOfFuel
  | fuel + 1, s, rc, log =>
    if s.i < 0xff then do
      let s1 ← fillGroup data nCable fuel { s with i := 1 }
      let (rc1, log1) := outTransfer4 usb m s1.buf log
      if rc1 ≠ 0 then
        .ok (rc1, log1)
      else
        sendLoop usb m data nCable fuel s1 rc1 log1
    else
      .ok (rc, log)

/-- `uint8_t MIDI::SendDataMulti(uint8_t *dataptr, byte nCable)`. The local array `buf` is not
initialised in the source: `stack` is what it holds on entry. The local `rc` is not initialised
either; it starts here as 0 and is assigned before it is read (`i` is 0 on entry, so the loop
body runs at least once). The result is the returned status and the log of transfers. -/
def SendDataMulti (usb : USB) (m : MIDI) (fuel : Nat) (stack : List Nat) (data : List Nat)
    (nCable : Nat) (log : List OutCall) : Except Fault (Nat × List OutCall) :=
  let buf := stack.set 0 (((nCable <<< 4) ||| 0x4) % 256)
  sendLoop usb m data nCable fuel (MultiLocals.mk buf 0 0) 0 log

/-- The `switch(msg)` of `SendData`, with its fall-through cases, as a function of `msg` and of
the packet `buf` built before it. -/
def switchMsg (nCable : Nat) (msg : Nat) (buf : List Nat) : List Nat :=
  if msg = 0xf2 then
    buf.set 0 (((nCable <<< 4) ||| 3) % 256)
  else if msg = 0x80 ∨ msg = 0x90 ∨ msg = 0xa0 ∨ msg = 0xb0 ∨ msg = 0xe0 then
    buf
  else if msg = 0xf1 ∨ msg = 0xf3 then
    (buf.set 0 (((nCable <<< 4) ||| 2) % 256)).set 3 0
  else if msg = 0xc0 ∨ msg = 0xd0 then
    buf.set 3 0
  else
    (buf.set 2 0).set 3 0

/-- `uint8_t MIDI::SendData(uint8_t *dataptr, byte nCable)`. `stack` is the content on entry of
the local array `buf` of `SendDataMulti`. The result is the returned status and the log of
transfers. -/
def SendData (usb : USB) (m : MIDI) (fuel : Nat) (stack : List Nat) (data : List Nat)
    (nCable : Nat) (log : List OutCall) : Except Fault (Nat × List OutCall) := do
  let msg ← rd data 0
  if msg = 0xf0 then
    SendDataMulti usb m fuel stack data nCable log
  else
    let buf0 := ((nCable <<< 4) ||| (msg >>> 4)) % 256
    let msg := if msg < 0xf0 then msg &&& 0xf0 else msg
    let buf1 ← rd data 0
    let buf2 ← rd data 1
    let buf3 ← rd data 2
    let buf := switchMsg nCable msg [buf0, buf1, buf2, buf3]
    .ok (outTransfer4 usb m buf log)

/-! ## Encoding of SysEx streams -/

/-- The packets of a SysEx stream on cable `nCable`, written from the description of the
segmentation: groups of three bytes in packets of code index 0x4, until the group that holds the
terminator 0xF7 at position `i`, which goes in a zero-filled packet of code index `0x4 + i`. -/
def sysexFrames (nCable : Nat) : List Nat → List (List Nat)
  | [] => []
  | a :: l1 =>
    if a = 0xf7 then [[((nCable <<< 4) ||| 0x5) % 256, a, 0, 0]]
    else match l1 with
      | [] => []
      | b :: l2 =>
        if b = 0xf7 then [[((nCable <<< 4) ||| 0x6) % 256, a, b, 0]]
        else match l2 with
          | [] => []
          | d :: l3 =>
            if d = 0xf7 then [[((nCable <<< 4) ||| 0x7) % 256, a, b, d]]
            else [((nCable <<< 4) ||| 0x4) % 256, a, b, d] :: sysexFrames nCable l3

/-- Transmission of a list of packets, one `outTransfer` each, stopping at the first non-zero
status. `rc` is the status so far. -/
def transmit (usb : USB) (m : MIDI) : List (List Nat) → Nat → List OutCall → Nat × List OutCall
  | [], rc, log => (rc, log)
  | f :: fs, _, log =>
    let r := outTransfer4 usb m f log
    if r.1 ≠ 0 then r else transmit usb m fs r.1 r.2

/-- The code index number of a packet: the low four bits of its first byte. -/
def cin (pkt : List Nat) : Nat := (pkt.getD 0 0) &&& 0x0F

/-- A receiver of SysEx packets that uses only the code index number of each packet: it takes
the three payload bytes of a packet of code index 0x4 and goes on, takes `i` payload bytes of a
packet of code index `0x4 + i` (`i` = 1, 2, 3) and stops. -/
def sysexReceive : List (List Nat) → List Nat
  | [] => []
  | pkt :: rest =>
    if cin pkt = 0x4 then (pkt.drop 1).take 3 ++ sysexReceive rest
    else if 0x5 ≤ cin pkt ∧ cin pkt ≤ 0x7 then (pkt.drop 1).take (cin pkt - 0x4)
    else []

/-! ## Packet codec: decoding -/

/-- `uint8_t MIDI::RcvData(uint16_t *bytes_rcvd, uint8_t *dataptr)`, the overload that fetches one
buffer from the MIDI IN endpoint. The result is the returned status, the value left in
`*bytes_rcvd` and the content of `dataptr` after the call. -/
def RcvDataBytes (usb : USB) (m : MIDI) : Nat × Nat × List Nat :=
  let bytes_rcvd := (m.epInfo epDataInIndex).maxPktSize
  usb.inTransfer m.bAddress (m.epInfo epDataInIndex).epAddr bytes_rcvd

/-- `bool MIDI::RcvData(uint8_t *outBuf)`. The result is the returned flag and the content of
`outBuf` after the call. -/
def RcvData (usb : USB) (m : MIDI) (outBuf : List Nat) : Except Fault (Bool × List Nat) :=
  if m.bPollEnable = false then .ok (false, outBuf)
  else
    let (rcode, _, rcvbuf) := RcvDataBytes usb m
    if rcode ≠ 0 then .ok (false, outBuf)
    else do
      let r0 ← rd rcvbuf 0
      let r1 ← rd rcvbuf 1
      let r2 ← rd rcvbuf 2
      let r3 ← rd rcvbuf 3
      if r0 = 0 ∧ r1 = 0 ∧ r2 = 0 ∧ r3 = 0 then .ok (false, outBuf)
      else do
        let out1 ← wr outBuf 0 r1
        let out2 ← wr out1 1 r2
        let out3 ← wr out2 2 r3
        .ok (true, out3)

/-! ## Descriptor scanner -/

/-- The constants that `parseConfigDescr` takes from headers that are not part of the sources
(`usbh_midi.h` of the driver and `usb_ch9.h` of the host library). They are parameters of the
embedding. The three descriptor types are `case` labels of one `switch`. -/
structure Header where
  DESC_BUFF_SIZE : Nat
  USB_DESCRIPTOR_CONFIGURATION : Nat
  USB_DESCRIPTOR_INTERFACE : Nat
  USB_DESCRIPTOR_ENDPOINT : Nat
  USB_CLASS_AUDIO : Nat
  USB_SUBCLASS_MIDISTREAMING : Nat
  deriving DecidableEq, Repr

/-- The `case` labels of the `switch` of `parseConfigDescr` are pairwise different. -/
def Header.distinct (K : Header) : Prop :=
  K.USB_DESCRIPTOR_CONFIGURATION ≠ K.USB_DESCRIPTOR_INTERFACE ∧
  K.USB_DESCRIPTOR_CONFIGURATION ≠ K.USB_DESCRIPTOR_ENDPOINT ∧
  K.USB_DESCRIPTOR_INTERFACE ≠ K.USB_DESCRIPTOR_ENDPOINT

instance (K : Header) : Decidable K.distinct := by
  unfold Header.distinct
  infer_instance

/-- Values of the constants for the concrete examples: the descriptor types and class codes of
the USB 2.0 and USB MIDI class documents, and a descriptor buffer of 256 bytes. -/
def usb20 : Header :=
  { DESC_BUFF_SIZE := 256
    USB_DESCRIPTOR_CONFIGURATION := 0x02
    USB_DESCRIPTOR_INTERFACE := 0x04
    USB_DESCRIPTOR_ENDPOINT := 0x05
    USB_CLASS_AUDIO := 0x01
    USB_SUBCLASS_MIDISTREAMING := 0x03 }

/-- The fields of `USB_ENDPOINT_DESCRIPTOR` that the scanner reads through `epDesc`. The
declaration of the structure is in a header that is not part of the sources; the layout is the
packed one of the fields that `PrintEndpointDescriptor` prints in order: `bLength`,
`bDescriptorType`, `bEndpointAddress`, `bmAttributes` (one byte each), `wMaxPacketSize` (two
bytes, low byte first), `bInterval`. -/
def epDesc_bEndpointAddress (buf : List Nat) (buf_ptr : Nat) : Except Fault Nat :=
  rd buf (buf_ptr + 2)

/-- Field `epDesc->bmAttributes`, see `epDesc_bEndpointAddress`. -/
def epDesc_bmAttributes (buf : List Nat) (buf_ptr : Nat) : Except Fault Nat :=
  rd buf (buf_ptr + 3)

/-- Field `epDesc->wMaxPacketSize`, see `epDesc_bEndpointAddress`. -/
def epDesc_wMaxPacketSize (buf : List Nat) (buf_ptr : Nat) : Except Fault Nat := do
  let lo ← rd buf (buf_ptr + 4)
  let hi ← rd buf (buf_ptr + 5)
  .ok (lo + 256 * hi)

/-- The `switch( descr_type )` of `parseConfigDescr`: the effect of the descriptor at `buf_ptr` on
the object and on the local `isMidi`. -/
def switchDescr (K : Header) (buf : List Nat) (buf_ptr descr_type : Nat) (m : MIDI)
    (isMidi : Bool) : Except Fault (MIDI × Bool) :=
  if descr_type = K.USB_DESCRIPTOR_CONFIGURATION then do
    let v ← rd buf (buf_ptr + 5)
    .ok ({ m with bConfNum := v }, isMidi)
  else if descr_type = K.USB_DESCRIPTOR_INTERFACE then do
    let bInterfaceClass ← rd buf (buf_ptr + 5)
    if bInterfaceClass = K.USB_CLASS_AUDIO then do
      let bInterfaceSubClass ← rd buf (buf_ptr + 6)
      if bInterfaceSubClass = K.USB_SUBCLASS_MIDISTREAMING then
        .ok ({ m with isMidiFound := true }, true)
      else
        .ok (m, false)
    else
      .ok (m, false)
  else if descr_type = K.USB_DESCRIPTOR_ENDPOINT then do
    let bmAttributes ← epDesc_bmAttributes buf buf_ptr
    if bmAttributes &&& 0x02 = 2 then do
      let bEndpointAddress ← epDesc_bEndpointAddress buf buf_ptr
      let index :=
        if isMidi then
          (if bEndpointAddress &&& 0x80 = 0x80 then epDataInIndex else epDataOutIndex)
        else
          (if bEndpointAddress &&& 0x80 = 0x80 then epDataInIndexVSP else epDataOutIndexVSP)
      let wMaxPacketSize ← epDesc_wMaxPacketSize buf buf_ptr
      let ep : EpInfo :=
        { m.epInfo index with
          epAddr := bEndpointAddress &&& 0x0F
          maxPktSize := wMaxPacketSize % 256 }
      .ok ({ m with epInfo := Function.update m.epInfo index ep,
                    bNumEP := (m.bNumEP + 1) % 256 }, isMidi)
    else
      .ok (m, isMidi)
  else
    .ok (m, isMidi)

/-- The loop `while( buf_ptr < buf + total_length ) { ... }` of `parseConfigDescr`; `buf_ptr` is
the offset of the pointer of that name from `buf`. -/
def scanLoop (K : Header) (buf : List Nat) (total_length : Nat) :
    Nat → Nat → MIDI → Bool → Except Fault MIDI
  | 0, _, _, _ => .error .outOfFuel
  | fuel + 1, buf_ptr, m, isMidi =>
    if buf_ptr < total_length then do
      let descr_length ← rd buf buf_ptr
      let descr_type ← rd buf (buf_ptr + 1)
      let (m1, isMidi1) ← switchDescr K buf buf_ptr descr_type m isMidi
      scanLoop K buf total_length fuel (buf_ptr + descr_length) m1 isMidi1
    else
      .ok m

/-- `void MIDI::parseConfigDescr( byte addr, byte conf )`. The result is the object after the
call. -/
def parseConfigDescr (K : Header) (usb : USB) (fuel : Nat) (m : MIDI) (addr conf : Nat) :
    Except Fault MIDI :=
  let (rcode, buf) := usb.getConfDescr addr 0 4 conf
  if rcode ≠ 0 then .ok m
  else do
    let b2 ← rd buf 2
    let b3 ← rd buf 3
    let total_length := b2 ||| (b3 <<< 8)
    let total_length := if total_length > K.DESC_BUFF_SIZE then K.DESC_BUFF_SIZE else total_length
    let (rcode, buf) := usb.getConfDescr addr 0 total_length conf
    if rcode ≠ 0 then .ok m
    else scanLoop K buf total_length fuel 0 m false

/-! ### Well-formed configurations -/

/-- A descriptor `d` of a well-formed configuration: its first byte is its length, and it is
long enough to hold the fields that the scanner reads in a descriptor of its type. -/
def wfDescr (K : Header) (d : List Nat) : Prop :=
  2 ≤ d.length ∧ d.getD 0 0 = d.length ∧
  (d.getD 1 0 = K.USB_DESCRIPTOR_CONFIGURATION → 6 ≤ d.length) ∧
  (d.getD 1 0 = K.USB_DESCRIPTOR_INTERFACE → 7 ≤ d.length) ∧
  (d.getD 1 0 = K.USB_DESCRIPTOR_ENDPOINT → 6 ≤ d.length)

instance (K : Header) (d : List Nat) : Decidable (wfDescr K d) := by
  unfold wfDescr
  infer_instance

/-- The effect of one descriptor `d` on the object and on `isMidi`: the `switch` of the scanner
run on the bytes of `d`. -/
def descrStep (K : Header) (s : MIDI × Bool) (d : List Nat) : MIDI × Bool :=
  match switchDescr K d 0 (d.getD 1 0) s.1 s.2 with
  | .ok r => r
  | .error _ => s

/-- An interface descriptor with class Audio and subclass MIDI-Streaming. -/
def isMidiInterface (K : Header) (d : List Nat) : Prop :=
  d.getD 1 0 = K.USB_DESCRIPTOR_INTERFACE ∧ d.getD 5 0 = K.USB_CLASS_AUDIO ∧
    d.getD 6 0 = K.USB_SUBCLASS_MIDISTREAMING

instance (K : Header) (d : List Nat) : Decidable (isMidiInterface K d) := by
  unfold isMidiInterface
  infer_instance

/-- An endpoint descriptor whose transfer type (low two bits of `bmAttributes`) is bulk. -/
def isBulkEndpoint (K : Header) (d : List Nat) : Prop :=
  d.getD 1 0 = K.USB_DESCRIPTOR_ENDPOINT ∧ d.getD 3 0 &&& 0x03 = 0x02

instance (K : Header) (d : List Nat) : Decidable (isBulkEndpoint K d) := by
  unfold isBulkEndpoint
  infer_instance

/-- An endpoint descriptor that passes the test `(bmAttributes & 0x02) == 2` of the scanner. -/
def isRegisteredEndpoint (K : Header) (d : List Nat) : Prop :=
  d.getD 1 0 = K.USB_DESCRIPTOR_ENDPOINT ∧ d.getD 3 0 &&& 0x02 = 2

instance (K : Header) (d : List Nat) : Decidable (isRegisteredEndpoint K d) := by
  unfold isRegisteredEndpoint
  infer_instance

/-- Bit 7 of the endpoint address of an endpoint descriptor is set: an IN endpoint. -/
def isIn (d : List Nat) : Prop := d.getD 2 0 &&& 0x80 = 0x80

instance (d : List Nat) : Decidable (isIn d) := by
  unfold isIn
  infer_instance

/-- The field `wMaxPacketSize` of an endpoint descriptor. -/
def wMaxPacketSize (d : List Nat) : Nat := d.getD 4 0 + 256 * d.getD 5 0

/-- The record that the scanner writes for the endpoint descriptor `d` over the record `old`. -/
def epRecord (old : EpInfo) (d : List Nat) : EpInfo :=
  { old with epAddr := d.getD 2 0 &&& 0x0F, maxPktSize := wMaxPacketSize d % 256 }

/-- The role index that the scanner chooses for the endpoint descriptor `d`. -/
def roleIndex (isMidi : Bool) (d : List Nat) : Nat :=
  if isMidi then (if isIn d then epDataInIndex else epDataOutIndex)
  else (if isIn d then epDataInIndexVSP else epDataOutIndexVSP)

/-! ## Session controller -/

/-- The error codes that `Init` returns, from a header of the host library that is not part of
the sources. They are parameters of the embedding. -/
structure ErrorCodes where
  USB_ERROR_CLASS_INSTANCE_ALREADY_IN_USE : Nat
  USB_ERROR_ADDRESS_NOT_FOUND_IN_POOL : Nat
  USB_ERROR_EPINFO_IS_NULL : Nat
  USB_ERROR_OUT_OF_ADDRESS_SPACE_IN_POOL : Nat
  deriving DecidableEq, Repr

/-- Values of the error codes for the concrete examples. -/
def usbErrors : ErrorCodes :=
  { USB_ERROR_CLASS_INSTANCE_ALREADY_IN_USE := 0xD9
    USB_ERROR_ADDRESS_NOT_FOUND_IN_POOL := 0xD6
    USB_ERROR_EPINFO_IS_NULL := 0xD7
    USB_ERROR_OUT_OF_ADDRESS_SPACE_IN_POOL := 0xD4 }

/-- A record `UsbDevice` of the address pool, as far as `Init` reads it: whether its pointer
`epinfo` is null. -/
structure UsbDevice where
  epinfoIsNull : Bool
  deriving DecidableEq, Repr

/-- What the host library and its address pool answer to the calls of `Init`.

* `GetUsbDevicePtr addr` is the record of `addr` in the pool, `none` for a null pointer;
* `getDevDescr addr ep nbytes` is the status and the content of the buffer after the call;
* `AllocAddress parent is_hub port` is the address handed out, 0 when there is none;
* `setAddr oldaddr ep newaddr` and `setConf addr ep conf` are the statuses of these requests;
* `setEpInfoEntry n` is the status of the `n`-th `setEpInfoEntry` call (counting from 0). -/
structure Host where
  GetUsbDevicePtr : Nat → Option UsbDevice
  getDevDescr : Nat → Nat → Nat → Nat × List Nat
  AllocAddress : Nat → Bool → Nat → Nat
  setAddr : Nat → Nat → Nat → Nat
  setEpInfoEntry : Nat → Nat
  setConf : Nat → Nat → Nat → Nat

/-- One `pUsb->setEpInfoEntry(addr, epcount, epInfo)` call: its arguments, with the content of
the table at the time of the call, and the status that the library returned. -/
structure BindCall where
  addr : Nat
  epcount : Nat
  table : Nat → EpInfo
  status : Nat

/-- The state of the host library that `Init` and `Release` change, and the record of their
calls: the addresses that `AllocAddress` handed out and `FreeAddress` did not take back, the
flag `lowspeed` of the records of the pool, the `setEpInfoEntry` calls, and the configuration
indices for which `Init` called `parseConfigDescr`. -/
structure World where
  pool : List Nat
  lowspeed : Nat → Bool
  binds : List BindCall
  scans : List Nat

/-- `addrPool.FreeAddress(addr)`. -/
def FreeAddress (w : World) (addr : Nat) : World :=
  { w with pool := w.pool.erase addr }

/-- `uint8_t MIDI::Release()`. The result is the object and the library state after the call
(the returned value is 0). -/
def Release (m : MIDI) (w : World) : MIDI × World :=
  let w1 := FreeAddress w m.bAddress
  ({ m with bNumEP := 1, bAddress := 0, bPollEnable := false }, w1)

/-- The fields of `USB_DEVICE_DESCRIPTOR` that `Init` reads through the cast of `buf`, and its
size. The declaration of the structure is in a header that is not part of the sources; the
layout is the packed one of the USB device descriptor, in which `idVendor` is at the bytes 8, 9
and `idProduct` at the bytes 10, 11 that `Init` reads directly: 18 bytes, `bMaxPacketSize0` at
byte 7 and `bNumConfigurations` at byte 17. -/
def sizeof_USB_DEVICE_DESCRIPTOR : Nat := 18

/-- Field `bMaxPacketSize0`, see `sizeof_USB_DEVICE_DESCRIPTOR`. -/
def devDesc_bMaxPacketSize0 (buf : List Nat) : Except Fault Nat := rd buf 7

/-- Field `bNumConfigurations`, see `sizeof_USB_DEVICE_DESCRIPTOR`. -/
def devDesc_bNumConfigurations (buf : List Nat) : Except Fault Nat := rd buf 17

/-- The loop `for (uint8_t i=0; i<num_of_conf; i++) { parseConfigDescr(bAddress, i); if (bNumEP > 1)
break; }` of `Init`, entered at the index `i`. Each call of `parseConfigDescr` is recorded in
`scans`. -/
def scanConfigs (K : Header) (usb : USB) (fuel : Nat) (num_of_conf : Nat) :
    Nat → Nat → MIDI → World → Except Fault (MIDI × World)
  | 0, _, _, _ => .error .outOfFuel
  | loopFuel + 1, i, m, w =>
    if i < num_of_conf then do
      let m1 ← parseConfigDescr K usb fuel m m.bAddress i
      let w1 : World := { w with scans := w.scans ++ [i] }
      if m1.bNumEP > 1 then
        .ok (m1, w1)
      else
        scanConfigs K usb fuel num_of_conf loopFuel ((i + 1) % 256) m1 w1
    else
      .ok (m, w)

/-- The block `if( !isMidiFound ){ ... }` of `Init`: the fallback records are copied into the
MIDI records. -/
def promoteFallback (m : MIDI) : MIDI :=
  if m.isMidiFound = false then
    let e1 : EpInfo := { m.epInfo epDataInIndex with epAddr := (m.epInfo epDataInIndexVSP).epAddr }
    let t1 := Function.update m.epInfo epDataInIndex e1
    let e2 : EpInfo := { t1 epDataInIndex with maxPktSize := (t1 epDataInIndexVSP).maxPktSize }
    let t2 := Function.update t1 epDataInIndex e2
    let e3 : EpInfo := { t2 epDataOutIndex with epAddr := (t2 epDataOutIndexVSP).epAddr }
    let t3 := Function.update t2 epDataOutIndex e3
    let e4 : EpInfo := { t3 epDataOutIndex with maxPktSize := (t3 epDataOutIndexVSP).maxPktSize }
    { m with epInfo := Function.update t3 epDataOutIndex e4 }
  else m

/-- The end of `Init`, from `if( bConfNum == 0 )` on: fallback promotion, second
`setEpInfoEntry`, `setConf`, and the exit through `Release` on failure. `rcode` is the local of
that name as the first `setEpInfoEntry` left it; the status of the second `setEpInfoEntry` is
assigned to it and overwritten by the status of `setConf` before it is read. -/
def bindAndConfigure (host : Host) (rcode : Nat) (m : MIDI) (w : World) : Nat × MIDI × World :=
  if m.bConfNum = 0 then
    let (m1, w1) := Release m w
    (rcode, m1, w1)
  else
    let m1 := promoteFallback m
    let rcode := host.setEpInfoEntry w.binds.length
    let w1 : World :=
      { w with binds := w.binds ++ [BindCall.mk m1.bAddress m1.bNumEP m1.epInfo rcode] }
    let rcode := host.setConf m1.bAddress 0 m1.bConfNum
    if rcode ≠ 0 then
      let (m2, w2) := Release m1 w1
      (rcode, m2, w2)
    else
      (0, { m1 with bPollEnable := true }, w1)

/-- The beginning of `Init`, up to the first `setEpInfoEntry`. The result `Sum.inl r` means that
`Init` returns here with the status, object and library state `r`; `Sum.inr (m, w, n, rcode)`
means that `Init` goes on to the loop over the configurations with the object `m`, the library
state `w`, and the locals `num_of_conf = n` and `rcode`. The stores to `p->epinfo`, which is set
to `epInfo` for the time of `getDevDescr` and then restored, are not represented. -/
def probeAndAssign (E : ErrorCodes) (host : Host) (m : MIDI) (w : World) (parent port : Nat)
    (lowspeed : Bool) :
    Except Fault ((Nat × MIDI × World) ⊕ (MIDI × World × Nat × Nat)) :=
  if m.bAddress ≠ 0 then .ok (.inl (E.USB_ERROR_CLASS_INSTANCE_ALREADY_IN_USE, m, w))
  else
    match host.GetUsbDevicePtr 0 with
    | none => .ok (.inl (E.USB_ERROR_ADDRESS_NOT_FOUND_IN_POOL, m, w))
    | some p =>
      if p.epinfoIsNull then .ok (.inl (E.USB_ERROR_EPINFO_IS_NULL, m, w))
      else do
        let w1 : World := { w with lowspeed := Function.update w.lowspeed 0 lowspeed }
        let (rcode, buf) := host.getDevDescr 0 0 sizeof_USB_DEVICE_DESCRIPTOR
        let b8 ← rd buf 8
        let b9 ← rd buf 9
        let m1 : MIDI := { m with vid := ((b8 + b9) <<< 8) % 65536 }
        let b10 ← rd buf 10
        let b11 ← rd buf 11
        let m2 : MIDI := { m1 with pid := ((b10 + b11) <<< 8) % 65536 }
        if rcode ≠ 0 then
          let (m3, w3) := Release m2 w1
          .ok (.inl (rcode, m3, w3))
        else
          let a := host.AllocAddress parent false port
          let m3 : MIDI := { m2 with bAddress := a }
          let w3 : World := if a = 0 then w1 else { w1 with pool := a :: w1.pool }
          if m3.bAddress = 0 then .ok (.inl (E.USB_ERROR_OUT_OF_ADDRESS_SPACE_IN_POOL, m3, w3))
          else do
            let bMaxPacketSize0 ← devDesc_bMaxPacketSize0 buf
            let ep0 : EpInfo := { m3.epInfo 0 with maxPktSize := bMaxPacketSize0 % 256 }
            let m4 : MIDI := { m3 with epInfo := Function.update m3.epInfo 0 ep0 }
            let rcode := host.setAddr 0 0 m4.bAddress
            if rcode ≠ 0 then
              let w4 : World := { w3 with lowspeed := Function.update w3.lowspeed 0 false }
              let w5 := FreeAddress w4 m4.bAddress
              .ok (.inl (rcode, { m4 with bAddress := 0 }, w5))
            else
              let w4 : World := { w3 with lowspeed := Function.update w3.lowspeed 0 false }
              match host.GetUsbDevicePtr m4.bAddress with
              | none => .ok (.inl (E.USB_ERROR_ADDRESS_NOT_FOUND_IN_POOL, m4, w4))
              | some _ => do
                let w5 : World :=
                  { w4 with lowspeed := Function.update w4.lowspeed m4.bAddress lowspeed }
                let bNumConfigurations ← devDesc_bNumConfigurations buf
                let num_of_conf := bNumConfigurations % 256
                let rcode := host.setEpInfoEntry w5.binds.length
                let w6 : World :=
                  { w5 with binds := w5.binds ++ [BindCall.mk m4.bAddress 1 m4.epInfo rcode] }
                if rcode ≠ 0 then
                  let (m5, w7) := Release m4 w6
                  .ok (.inl (rcode, m5, w7))
                else
                  .ok (.inr (m4, w6, num_of_conf, rcode))

/-- `uint8_t MIDI::Init(uint8_t parent, uint8_t port, bool lowspeed)`. The result is the returned
status, the object and the library state after the call. -/
def Init (K : Header) (E : ErrorCodes) (usb : USB) (host : Host) (fuel : Nat) (m : MIDI)
    (w : World) (parent port : Nat) (lowspeed : Bool) : Except Fault (Nat × MIDI × World) := do
  match ← probeAndAssign E host m w parent port lowspeed with
  | .inl r => .ok r
  | .inr (m4, w6, num_of_conf, rcode) => do
    let (m5, w7) ← scanConfigs K usb fuel num_of_conf fuel 0 m4 w6
    .ok (bindAndConfigure host rcode m5 w7)

/-- The scan of the `c` configurations of indices `i`, `i + 1`, ... one after the other, without
the early exit of the loop of `Init`: the object after these `c` calls of `parseConfigDescr`. -/
def scanSeq (K : Header) (usb : USB) (fuel : Nat) : Nat → Nat → MIDI → Except Fault MIDI
  | _, 0, m => .ok m
  | i, c + 1, m => do
    let m1 ← parseConfigDescr K usb fuel m m.bAddress i
    scanSeq K usb fuel (i + 1) c m1

/-! ## Sample objects and devices -/

/-- A driver object as the constructor initialises it, with address 1 bound and polling
enabled. -/
def sampleMidi : MIDI :=
  { bAddress := 1
    bConfNum := 0
    bNumEP := 1
    bPollEnable := true
    isMidiFound := false
    pid := 0
    vid := 0
    epInfo := fun i => EpInfo.mk 0 (if i = 0 then 8 else 0) 0 (if i = 0 then 4 else 1) }

/-- A host library whose transfers all succeed, with a device attached that delivers the bytes
`conf` as its configuration descriptor (in a descriptor buffer of 256 bytes) and the bytes `rcv`
on its IN endpoint. -/
def sampleUsb (conf rcv : List Nat) : USB :=
  { outTransfer := fun _ => 0
    inTransfer := fun _ _ _ => (0, rcv.length, rcv)
    getConfDescr := fun _ _ _ _ => (0, conf ++ List.replicate (256 - conf.length) 0) }

/-- A host library whose `outTransfer` call number `k` fails with status `e`. -/
def failingUsb (k e : Nat) : USB :=
  { outTransfer := fun n => if n = k then e else 0
    inTransfer := fun _ _ _ => (0, 0, [])
    getConfDescr := fun _ _ _ _ => (0, []) }

/-- The configuration of a full-speed MIDI device: configuration descriptor, MIDI-Streaming
interface, bulk IN endpoint 0x81 and bulk OUT endpoint 0x02 with 64-byte packets. -/
def midiConfig : List (List Nat) :=
  [[9, 0x02, 32, 0, 1, 1, 0, 0x80, 50], [9, 0x04, 0, 0, 2, 0x01, 0x03, 0, 0],
    [7, 0x05, 0x81, 0x02, 64, 0, 0], [7, 0x05, 0x02, 0x02, 64, 0, 0]]

/-- The configuration of a high-speed MIDI device: as `midiConfig`, with `wMaxPacketSize` 512
on both bulk endpoints. -/
def highSpeedConfig : List (List Nat) :=
  [[9, 0x02, 32, 0, 1, 1, 0, 0x80, 50], [9, 0x04, 0, 0, 2, 0x01, 0x03, 0, 0],
    [7, 0x05, 0x81, 0x02, 0, 2, 0], [7, 0x05, 0x02, 0x02, 0, 2, 0]]

/-- The configuration of a vendor-specific device: one interface of class 0xFF with the bulk
IN endpoint 0x81 (64-byte packets) and the bulk OUT endpoint 0x02 (32-byte packets). -/
def vendorConfig : List (List Nat) :=
  [[9, 0x02, 32, 0, 1, 1, 0, 0x80, 50], [9, 0x04, 0, 0, 2, 0xFF, 0, 0, 0],
    [7, 0x05, 0x81, 0x02, 64, 0, 0], [7, 0x05, 0x02, 0x02, 32, 0, 0]]

/-- A malformed configuration: a configuration descriptor that announces 11 bytes, followed by
an entry whose length byte is 0. -/
def zeroLengthConfig : List Nat := [9, 0x02, 11, 0, 1, 1, 0, 0x80, 50, 0, 0]

/-- A driver object as the constructor leaves it; the members `bConfNum`, `pid` and `vid`, which
the constructor does not initialise, are 0 as in a zero-initialised static object. -/
def freshMidi : MIDI :=
  { bAddress := 0
    bConfNum := 0
    bNumEP := 1
    bPollEnable := false
    isMidiFound := false
    pid := 0
    vid := 0
    epInfo := fun i => EpInfo.mk 0 (if i = 0 then 8 else 0) 0 (if i = 0 then 4 else 1) }

/-- The host library before any call of the driver. -/
def emptyWorld : World :=
  { pool := []
    lowspeed := fun _ => false
    binds := []
    scans := [] }

/-- A device descriptor: vendor 0x0499, product 0x101F, 8-byte control packets, one
configuration. -/
def deviceDescriptor : List Nat :=
  [18, 0x01, 0x10, 0x01, 0, 0, 0, 8, 0x99, 0x04, 0x1F, 0x10, 0x00, 0x01, 1, 2, 0, 1]

/-- A host library in which every call of `Init` succeeds: the pool knows every address and hands
out address 1, and the device delivers the bytes `dev` as its device descriptor (in a buffer of
256 bytes). -/
def sampleHost (dev : List Nat) : Host :=
  { GetUsbDevicePtr := fun _ => some (UsbDevice.mk false)
    getDevDescr := fun _ _ _ => (0, dev ++ List.replicate (256 - dev.length) 0)
    AllocAddress := fun _ _ _ => 1
    setAddr := fun _ _ _ => 0
    setEpInfoEntry := fun _ => 0
    setConf := fun _ _ _ => 0 }

/-- A host library whose `getConfDescr` requests fail with status 5. -/
def stalledUsb : USB :=
  { outTransfer := fun _ => 0
    inTransfer := fun _ _ _ => (0, 0, [])
    getConfDescr := fun _ _ _ _ => (5, List.replicate 256 0) }

/-- A configuration of 300 bytes of which the 256-byte buffer receives the first 256: a
configuration descriptor that announces 300 bytes, a class-specific descriptor of 246 bytes, and
the first byte of a 7-byte descriptor at offset 255. -/
def truncatedConfig : List Nat :=
  [9, 0x02, 0x2C, 0x01, 1, 1, 0, 0x80, 50] ++ (246 :: 0x24 :: List.replicate 244 0) ++ [7]

/-- The configuration of a device with a vendor-specific interface and the interrupt IN endpoint
0x83 (8-byte packets). -/
def interruptConfig : List (List Nat) :=
  [[9, 0x02, 25, 0, 1, 1, 0, 0x80, 50], [9, 0x04, 0, 0, 1, 0xFF, 0, 0, 0],
    [7, 0x05, 0x83, 0x03, 8, 0, 10]]

/-- A first configuration with a vendor-specific interface and exactly one bulk endpoint, the
IN endpoint 0x81. -/
def oneEndpointConfig : List (List Nat) :=
  [[9, 0x02, 25, 0, 1, 1, 0, 0x80, 50], [9, 0x04, 0, 0, 1, 0xFF, 0, 0, 0],
    [7, 0x05, 0x81, 0x02, 64, 0, 0]]

/-- A device with two configurations: `oneEndpointConfig` at index 0 and `midiConfig`, with
configuration value 2, at index 1. -/
def twoConfigUsb : USB :=
  { outTransfer := fun _ => 0
    inTransfer := fun _ _ _ => (0, 0, [])
    getConfDescr := fun _ _ _ conf =>
      if conf = 0 then
        (0, oneEndpointConfig.flatten ++ List.replicate (256 - oneEndpointConfig.flatten.length) 0)
      else
        (0, [9, 0x02, 32, 0, 1, 2, 0, 0x80, 50] ++ (midiConfig.drop 1).flatten ++
          List.replicate (256 - midiConfig.flatten.length) 0) }

/-- The device descriptor of a device that declares two configurations. -/
def twoConfigDescriptor : List Nat :=
  [18, 0x01, 0x10, 0x01, 0, 0, 0, 8, 0x99, 0x04, 0x1F, 0x10, 0x00, 0x01, 1, 2, 0, 2]

/-! # Properties -/

/-! ## Lemmas on bytes -/

theorem header_lt (c n : Nat) (hc : c < 16) (hn : n < 16) : (c <<< 4) ||| n < 256 := by
  have h1 : c <<< 4 < 2 ^ 8 := by
    rw [Nat.shiftLeft_eq]; omega
  have h2 : n < 2 ^ 8 := by omega
  exact Nat.or_lt_two_pow h1 h2

theorem header_byte (c n : Nat) (hc : c < 16) (hn : n < 16) :
    ((c <<< 4) ||| n) % 256 = (c <<< 4) ||| n :=
  Nat.mod_eq_of_lt (header_lt c n hc hn)

theorem and_f0 (s : Nat) (hs : s < 256) : s &&& 0xf0 = (s >>> 4) * 16 := by
  interval_cases s <;> rfl

theorem nibble_lt (s : Nat) (hs : s < 256) : s >>> 4 < 16 := by
  rw [Nat.shiftRight_eq_div_pow]; omega

theorem cin_header : ∀ c, c < 16 → ∀ k, k < 16 → (((c <<< 4) ||| k) % 256) &&& 0x0F = k := by
  decide

theorem rd_append (pre l : List Nat) (k : Nat) :
    rd (pre ++ l) (pre.length + k) = rd l k := by
  simp [rd, List.getElem?_append_right]

theorem fillGroup_full (data : List Nat) (c f b0 x y z p a b d : Nat)
    (ha : rd data p = .ok a) (hb : rd data (p + 1) = .ok b) (hd : rd data (p + 2) = .ok d)
    (ha7 : a ≠ 0xf7) (hb7 : b ≠ 0xf7) (hd7 : d ≠ 0xf7) :
    fillGroup data c (f + 4) ⟨[b0, x, y, z], 1, p⟩ = .ok ⟨[b0, a, b, d], 4, p + 3⟩ := by
  simp [fillGroup, bind, Except.bind, ha, hb, hd, ha7, hb7, hd7]

theorem fillGroup_end1 (data : List Nat) (c f b0 x y z p : Nat)
    (ha : rd data p = .ok 0xf7) :
    fillGroup data c (f + 4) ⟨[b0, x, y, z], 1, p⟩ =
      .ok ⟨[((c <<< 4) ||| 0x5) % 256, 0xf7, 0, 0], 0xff, p⟩ := by
  simp [fillGroup, zeroFill, bind, Except.bind, ha]

theorem fillGroup_end2 (data : List Nat) (c f b0 x y z p a : Nat)
    (ha : rd data p = .ok a) (hb : rd data (p + 1) = .ok 0xf7) (ha7 : a ≠ 0xf7) :
    fillGroup data c (f + 4) ⟨[b0, x, y, z], 1, p⟩ =
      .ok ⟨[((c <<< 4) ||| 0x6) % 256, a, 0xf7, 0], 0xff, p + 1⟩ := by
  simp [fillGroup, zeroFill, bind, Except.bind, ha, hb, ha7]

theorem fillGroup_end3 (data : List Nat) (c f b0 x y z p a b : Nat)
    (ha : rd data p = .ok a) (hb : rd data (p + 1) = .ok b) (hd : rd data (p + 2) = .ok 0xf7)
    (ha7 : a ≠ 0xf7) (hb7 : b ≠ 0xf7) :
    fillGroup data c (f + 4) ⟨[b0, x, y, z], 1, p⟩ =
      .ok ⟨[((c <<< 4) ||| 0x7) % 256, a, b, 0xf7], 0xff, p + 2⟩ := by
  simp [fillGroup, zeroFill, bind, Except.bind, ha, hb, hd, ha7, hb7]

theorem sendLoop_exit (usb : USB) (m : MIDI) (data : List Nat) (c f rc : Nat)
    (buf : List Nat) (p : Nat) (log : List OutCall) :
    sendLoop usb m data c (f + 1) ⟨buf, 0xff, p⟩ rc log = .ok (rc, log) := by
  simp [sendLoop]

/-- The loop of `SendDataMulti`, started at the offset `pre.length` of a stream whose next
terminator comes after the bytes `body`, transmits the packets of `body ++ [0xf7]`. -/
theorem sendLoop_frames (usb : USB) (m : MIDI) (c : Nat) :
    ∀ (n : Nat) (body pre tail : List Nat) (fuel x y z i rc : Nat) (log : List OutCall),
      body.length = n → 0xf7 ∉ body → i < 0xff → body.length / 3 + 5 ≤ fuel →
      sendLoop usb m (pre ++ (body ++ 0xf7 :: tail)) c fuel
          ⟨[((c <<< 4) ||| 0x4) % 256, x, y, z], i, pre.length⟩ rc log =
        .ok (transmit usb m (sysexFrames c (body ++ [0xf7])) rc log) := by
  intro n
  induction n using Nat.strong_induction_on with
  | _ n ih =>
    intro body pre tail fuel x y z i rc log hn h7 hi hfuel
    obtain ⟨g, rfl⟩ : ∃ g, fuel = g + 4 + 1 := ⟨fuel - 5, by omega⟩
    match body, hn, h7, hfuel with
    | [], _, _, _ =>
      have ha : rd (pre ++ ([] ++ 0xf7 :: tail)) (pre.length) = .ok 0xf7 := by
        simpa [rd] using rd_append pre (0xf7 :: tail) 0
      rw [sendLoop]
      simp only [hi, if_true, fillGroup_end1 _ c g _ x y z _ ha, bind, Except.bind]
      by_cases hrc : usb.outTransfer log.length = 0 <;>
        simp [outTransfer4, hrc, sendLoop, sysexFrames, transmit]
    | [a], _, h7, _ =>
      have ha7 : a ≠ 0xf7 := by
        intro h; apply h7; simp [h]
      have ha : rd (pre ++ ([a] ++ 0xf7 :: tail)) (pre.length) = .ok a := by
        simpa [rd] using rd_append pre (a :: 0xf7 :: tail) 0
      have hb : rd (pre ++ ([a] ++ 0xf7 :: tail)) (pre.length + 1) = .ok 0xf7 := by
        simpa [rd] using rd_append pre (a :: 0xf7 :: tail) 1
      rw [sendLoop]
      simp only [hi, if_true, fillGroup_end2 _ c g _ x y z _ a ha hb ha7, bind, Except.bind]
      by_cases hrc : usb.outTransfer log.length = 0 <;>
        simp [outTransfer4, hrc, sendLoop, sysexFrames, transmit, ha7]
    | [a, b], _, h7, _ =>
      have ha7 : a ≠ 0xf7 := by
        intro h; apply h7; simp [h]
      have hb7 : b ≠ 0xf7 := by
        intro h; apply h7; simp [h]
      have ha : rd (pre ++ ([a, b] ++ 0xf7 :: tail)) (pre.length) = .ok a := by
        simpa [rd] using rd_append pre (a :: b :: 0xf7 :: tail) 0
      have hb : rd (pre ++ ([a, b] ++ 0xf7 :: tail)) (pre.length + 1) = .ok b := by
        simpa [rd] using rd_append pre (a :: b :: 0xf7 :: tail) 1
      have hd : rd (pre ++ ([a, b] ++ 0xf7 :: tail)) (pre.length + 2) = .ok 0xf7 := by
        simpa [rd] using rd_append pre (a :: b :: 0xf7 :: tail) 2
      rw [sendLoop]
      simp only [hi, if_true, fillGroup_end3 _ c g _ x y z _ a b ha hb hd ha7 hb7, bind,
        Except.bind]
      by_cases hrc : usb.outTransfer log.length = 0 <;>
        simp [outTransfer4, hrc, sendLoop, sysexFrames, transmit, ha7, hb7]
    | a :: b :: d :: body1, hn, h7, hfuel =>
      have ha7 : a ≠ 0xf7 := by
        intro h; apply h7; simp [h]
      have hb7 : b ≠ 0xf7 := by
        intro h; apply h7; simp [h]
      have hd7 : d ≠ 0xf7 := by
        intro h; apply h7; simp [h]
      have h71 : 0xf7 ∉ body1 := by
        intro h; apply h7; simp [h]
      have ha : rd (pre ++ (a :: b :: d :: body1 ++ 0xf7 :: tail)) (pre.length) = .ok a := by
        simpa [rd] using rd_append pre (a :: b :: d :: body1 ++ 0xf7 :: tail) 0
      have hb : rd (pre ++ (a :: b :: d :: body1 ++ 0xf7 :: tail)) (pre.length + 1) =
          .ok b := by
        simpa [rd] using rd_append pre (a :: b :: d :: body1 ++ 0xf7 :: tail) 1
      have hd : rd (pre ++ (a :: b :: d :: body1 ++ 0xf7 :: tail)) (pre.length + 2) =
          .ok d := by
        simpa [rd] using rd_append pre (a :: b :: d :: body1 ++ 0xf7 :: tail) 2
      have hdata : pre ++ (a :: b :: d :: body1 ++ 0xf7 :: tail) =
          (pre ++ [a, b, d]) ++ (body1 ++ 0xf7 :: tail) := by simp
      have hlen : pre.length + 3 = (pre ++ [a, b, d]).length := by simp
      simp only [List.length_cons] at hn hfuel
      rw [sendLoop]
      simp only [hi, if_true, fillGroup_full _ c g _ x y z _ a b d ha hb hd ha7 hb7 hd7, bind,
        Except.bind]
      by_cases hrc : usb.outTransfer log.length = 0
      · have hrec := ih body1.length (by omega) body1 (pre ++ [a, b, d]) tail (g + 4) a b d 4
          (usb.outTransfer log.length)
          (log ++ [packetCall m [((c <<< 4) ||| 0x4) % 256, a, b, d]]) rfl h71 (by norm_num)
          (by omega)
        rw [← hdata, ← hlen] at hrec
        simp [outTransfer4, hrc, sysexFrames, transmit, ha7, hb7, hd7]
        simpa [hrc] using hrec
      · simp [outTransfer4, hrc, sysexFrames, transmit, ha7, hb7, hd7]

/-! ### The packets of a stream -/

theorem body_induction {P : List Nat → Prop} (h0 : P []) (h1 : ∀ a, P [a])
    (h2 : ∀ a b, P [a, b]) (h3 : ∀ a b d l, P l → P (a :: b :: d :: l)) : ∀ l, P l
  | [] => h0
  | [a] => h1 a
  | [a, b] => h2 a b
  | a :: b :: d :: l => h3 a b d l (body_induction h0 h1 h2 h3 l)

theorem sysexFrames_length (c : Nat) (body : List Nat) (h7 : 0xf7 ∉ body) :
    (sysexFrames c (body ++ [0xf7])).length = body.length / 3 + 1 := by
  induction body using body_induction with
  | h0 => simp [sysexFrames]
  | h1 a =>
    have ha : a ≠ 0xf7 := by intro h; apply h7; simp [h]
    simp [sysexFrames, ha]
  | h2 a b =>
    have ha : a ≠ 0xf7 := by intro h; apply h7; simp [h]
    have hb : b ≠ 0xf7 := by intro h; apply h7; simp [h]
    simp [sysexFrames, ha, hb]
  | h3 a b d l ih =>
    have ha : a ≠ 0xf7 := by intro h; apply h7; simp [h]
    have hb : b ≠ 0xf7 := by intro h; apply h7; simp [h]
    have hd : d ≠ 0xf7 := by intro h; apply h7; simp [h]
    have hl : 0xf7 ∉ l := by intro h; apply h7; simp [h]
    simp [sysexFrames, ha, hb, hd, ih hl]
    omega

theorem sysexFrames_heads (c : Nat) (hc : c < 16) (body : List Nat) (h7 : 0xf7 ∉ body) :
    ∀ j, j + 1 < (sysexFrames c (body ++ [0xf7])).length →
      ∃ p1 p2 p3, (sysexFrames c (body ++ [0xf7]))[j]? = some [(c <<< 4) ||| 0x4, p1, p2, p3] := by
  induction body using body_induction with
  | h0 => intro j hj; simp [sysexFrames] at hj
  | h1 a =>
    have ha : a ≠ 0xf7 := by intro h; apply h7; simp [h]
    intro j hj; simp [sysexFrames, ha] at hj
  | h2 a b =>
    have ha : a ≠ 0xf7 := by intro h; apply h7; simp [h]
    have hb : b ≠ 0xf7 := by intro h; apply h7; simp [h]
    intro j hj; simp [sysexFrames, ha, hb] at hj
  | h3 a b d l ih =>
    have ha : a ≠ 0xf7 := by intro h; apply h7; simp [h]
    have hb : b ≠ 0xf7 := by intro h; apply h7; simp [h]
    have hd : d ≠ 0xf7 := by intro h; apply h7; simp [h]
    have hl : 0xf7 ∉ l := by intro h; apply h7; simp [h]
    have h4 := header_byte c 4 hc (by norm_num)
    have hF : sysexFrames c (a :: b :: d :: l ++ [0xf7]) =
        [(c <<< 4) ||| 0x4, a, b, d] :: sysexFrames c (l ++ [0xf7]) := by
      simp [sysexFrames, ha, hb, hd, h4]
    intro j hj
    rw [hF] at hj ⊢
    cases j with
    | zero => exact ⟨a, b, d, by simp⟩
    | succ j =>
      simp only [List.length_cons] at hj
      simpa using ih hl j (by omega)

theorem sysexFrames_last (c : Nat) (hc : c < 16) (body : List Nat) (h7 : 0xf7 ∉ body) :
    ∃ pkt, (sysexFrames c (body ++ [0xf7])).getLast? = some pkt ∧ pkt.length = 4 ∧
      pkt[0]? = some ((c <<< 4) ||| (0x4 + (body.length % 3 + 1))) ∧
      pkt[body.length % 3 + 1]? = some 0xf7 ∧
      ∀ j, body.length % 3 + 1 < j → j < 4 → pkt[j]? = some 0 := by
  induction body using body_induction with
  | h0 =>
    refine ⟨[(c <<< 4) ||| 0x5, 0xf7, 0, 0], ?_, rfl, rfl, rfl, ?_⟩
    · simp [sysexFrames, header_byte c 5 hc (by norm_num)]
    · intro j h1 h2
      simp only [List.length_nil, Nat.zero_mod] at h1
      interval_cases j <;> rfl
  | h1 a =>
    have ha : a ≠ 0xf7 := by intro h; apply h7; simp [h]
    refine ⟨[(c <<< 4) ||| 0x6, a, 0xf7, 0], ?_, rfl, rfl, rfl, ?_⟩
    · simp [sysexFrames, ha, header_byte c 6 hc (by norm_num)]
    · intro j h1 h2
      simp only [List.length_singleton] at h1
      interval_cases j; rfl
  | h2 a b =>
    have ha : a ≠ 0xf7 := by intro h; apply h7; simp [h]
    have hb : b ≠ 0xf7 := by intro h; apply h7; simp [h]
    refine ⟨[(c <<< 4) ||| 0x7, a, b, 0xf7], ?_, rfl, rfl, rfl, ?_⟩
    · simp [sysexFrames, ha, hb, header_byte c 7 hc (by norm_num)]
    · intro j h1 h2
      simp at h1
      omega
  | h3 a b d l ih =>
    have ha : a ≠ 0xf7 := by intro h; apply h7; simp [h]
    have hb : b ≠ 0xf7 := by intro h; apply h7; simp [h]
    have hd : d ≠ 0xf7 := by intro h; apply h7; simp [h]
    have hl : 0xf7 ∉ l := by intro h; apply h7; simp [h]
    have hF : sysexFrames c (a :: b :: d :: l ++ [0xf7]) =
        [((c <<< 4) ||| 0x4) % 256, a, b, d] :: sysexFrames c (l ++ [0xf7]) := by
      simp [sysexFrames, ha, hb, hd]
    have hlen := sysexFrames_length c l hl
    obtain ⟨pkt, hlast, hrest⟩ := ih hl
    refine ⟨pkt, ?_, ?_⟩
    · rw [hF]
      cases hF1 : sysexFrames c (l ++ [0xf7]) with
      | nil => rw [hF1] at hlen; simp at hlen
      | cons g G => rw [hF1] at hlast; simpa [List.getLast?_cons_cons] using hlast
    · have hmod : (a :: b :: d :: l).length % 3 = l.length % 3 := by
        simp only [List.length_cons]
        omega
      rw [hmod]
      exact hrest

theorem sysexReceive_frames (c : Nat) (hc : c < 16) (body : List Nat) (h7 : 0xf7 ∉ body) :
    sysexReceive (sysexFrames c (body ++ [0xf7])) = body ++ [0xf7] := by
  induction body using body_induction with
  | h0 => simp [sysexFrames, sysexReceive, cin, cin_header c hc 5 (by norm_num)]
  | h1 a =>
    have ha : a ≠ 0xf7 := by intro h; apply h7; simp [h]
    simp [sysexFrames, sysexReceive, cin, cin_header c hc 6 (by norm_num), ha]
  | h2 a b =>
    have ha : a ≠ 0xf7 := by intro h; apply h7; simp [h]
    have hb : b ≠ 0xf7 := by intro h; apply h7; simp [h]
    simp [sysexFrames, sysexReceive, cin, cin_header c hc 7 (by norm_num), ha, hb]
  | h3 a b d l ih =>
    have ha : a ≠ 0xf7 := by intro h; apply h7; simp [h]
    have hb : b ≠ 0xf7 := by intro h; apply h7; simp [h]
    have hd : d ≠ 0xf7 := by intro h; apply h7; simp [h]
    have hl : 0xf7 ∉ l := by intro h; apply h7; simp [h]
    simp [sysexFrames, sysexReceive, cin, cin_header c hc 4 (by norm_num), ha, hb, hd, ih hl]

/-! ### Transmission -/

theorem transmit_ok (usb : USB) (m : MIDI) :
    ∀ (F : List (List Nat)) (rc : Nat) (log : List OutCall),
      (∀ j, j < F.length → usb.outTransfer (log.length + j) = 0) → F ≠ [] →
      transmit usb m F rc log = (0, log ++ F.map (packetCall m))
  | [], _, _, _, hne => absurd rfl hne
  | [f], rc, log, h0, _ => by
    have h := h0 0 (by simp)
    simp only [Nat.add_zero] at h
    simp [transmit, outTransfer4, h]
  | f :: g :: G, rc, log, h0, _ => by
    have h := h0 0 (by simp)
    simp only [Nat.add_zero] at h
    have hrec := transmit_ok usb m (g :: G) 0 (log ++ [packetCall m f])
      (by
        intro j hj
        have := h0 (j + 1) (by simpa using hj)
        simpa [Nat.add_assoc, Nat.add_comm 1 j] using this)
      (by simp)
    rw [transmit]
    simp only [outTransfer4, h, ne_eq, not_true_eq_false, if_false]
    rw [hrec]
    simp

theorem transmit_fail (usb : USB) (m : MIDI) :
    ∀ (F : List (List Nat)) (k rc : Nat) (log : List OutCall),
      k < F.length → (∀ j, j < k → usb.outTransfer (log.length + j) = 0) →
      usb.outTransfer (log.length + k) ≠ 0 →
      transmit usb m F rc log =
        (usb.outTransfer (log.length + k), log ++ (F.take (k + 1)).map (packetCall m))
  | [], _, _, _, hk, _, _ => by simp at hk
  | f :: F, 0, rc, log, _, _, he => by
    simp only [Nat.add_zero] at he
    simp [transmit, outTransfer4, he]
  | f :: F, k + 1, rc, log, hk, h0, he => by
    have h := h0 0 (by omega)
    simp only [Nat.add_zero] at h
    have hrec := transmit_fail usb m F k 0 (log ++ [packetCall m f])
      (by simpa using hk)
      (by
        intro j hj
        have := h0 (j + 1) (by omega)
        simpa [Nat.add_assoc, Nat.add_comm 1 j] using this)
      (by simpa [Nat.add_assoc, Nat.add_comm 1 k] using he)
    rw [transmit]
    simp only [outTransfer4, h, ne_eq, not_true_eq_false, if_false]
    rw [hrec]
    simp [Nat.add_assoc, Nat.add_comm 1 k]

/-- A stream whose first 0xF7 is at index `L - 1` splits there. -/
theorem split_at_terminator (data : List Nat) (L : Nat) (hL : 1 ≤ L)
    (h7 : data[L - 1]? = some 0xf7) (hfirst : ∀ j, j < L - 1 → data[j]? ≠ some 0xf7) :
    data = data.take (L - 1) ++ 0xf7 :: data.drop L ∧ (data.take (L - 1)).length = L - 1 ∧
      0xf7 ∉ data.take (L - 1) := by
  obtain ⟨hlt, hget⟩ := List.getElem?_eq_some.mp h7
  refine ⟨?_, ?_, ?_⟩
  · have h1 : data.drop (L - 1) = data[L - 1] :: data.drop (L - 1 + 1) :=
      List.drop_eq_getElem_cons hlt
    rw [hget, Nat.sub_add_cancel hL] at h1
    rw [← h1, List.take_append_drop]
  · rw [List.length_take]; omega
  · intro hmem
    obtain ⟨j, hj, hjget⟩ := List.mem_iff_getElem.mp hmem
    rw [List.length_take] at hj
    have hj1 : j < L - 1 := by omega
    apply hfirst j hj1
    rw [List.getElem_take] at hjget
    rw [List.getElem?_eq_getElem (by omega), hjget]

theorem take_terminator (data : List Nat) (L : Nat) (hL : 1 ≤ L)
    (h7 : data[L - 1]? = some 0xf7) : data.take L = data.take (L - 1) ++ [0xf7] := by
  obtain ⟨hlt, hget⟩ := List.getElem?_eq_some.mp h7
  have h := List.take_succ (l := data) (n := L - 1)
  rw [Nat.sub_add_cancel hL] at h
  rw [h, h7]
  rfl

/-- `SendDataMulti` on a stream whose first 0xF7 is at index `L - 1` transmits the packets of the
first `L` bytes of the stream, and `SendData` does the same when the stream begins with 0xF0. -/
theorem SendDataMulti_frames (usb : USB) (m : MIDI) (fuel : Nat) (stack data : List Nat)
    (c L : Nat) (log : List OutCall) (hstack : stack.length = 4) (hL : 1 ≤ L)
    (h7 : data[L - 1]? = some 0xf7) (hfirst : ∀ j, j < L - 1 → data[j]? ≠ some 0xf7)
    (hfuel : (L + 2) / 3 + 4 ≤ fuel) :
    SendDataMulti usb m fuel stack data c log =
        .ok (transmit usb m (sysexFrames c (data.take L)) 0 log) ∧
      (data[0]? = some 0xf0 →
        SendData usb m fuel stack data c log =
          .ok (transmit usb m (sysexFrames c (data.take L)) 0 log)) := by
  obtain ⟨hsplit, hlen, hnot⟩ := split_at_terminator data L hL h7 hfirst
  have hmulti : SendDataMulti usb m fuel stack data c log =
      .ok (transmit usb m (sysexFrames c (data.take L)) 0 log) := by
    match stack, hstack with
    | [s0, s1, s2, s3], _ =>
      have h := sendLoop_frames usb m c (L - 1) (data.take (L - 1)) [] (data.drop L) fuel
        s1 s2 s3 0 0 log hlen hnot (by norm_num) (by omega)
      rw [List.nil_append, ← hsplit] at h
      rw [take_terminator data L hL h7]
      simpa [SendDataMulti] using h
  refine ⟨hmulti, ?_⟩
  intro h0
  have hrd : rd data 0 = .ok 0xf0 := by simp [rd, h0]
  simp only [SendData, hrd, bind, Except.bind, if_true]
  exact hmulti

/-! ## Encoding of short messages -/

/-- C1. `SendData` on a channel-voice message `s, d1, d2` on cable `c`: when the high nibble
of `s` is 0x8, 0x9, 0xA, 0xB or 0xE, exactly one transfer is issued and its packet is
`[(c<<4)|(s>>4), s, d1, d2]`; when the high nibble is 0xC or 0xD the single packet is
`[(c<<4)|(s>>4), s, d1, 0]`. The returned status is the status of that transfer. -/
theorem SendData_channel_voice (usb : USB) (m : MIDI) (fuel : Nat) (stack rest : List Nat)
    (log : List OutCall) (c s d1 d2 : Nat) (hc : c < 16) (hs : s < 256) :
    ((s >>> 4 = 0x8 ∨ s >>> 4 = 0x9 ∨ s >>> 4 = 0xA ∨ s >>> 4 = 0xB ∨ s >>> 4 = 0xE) →
      SendData usb m fuel stack (s :: d1 :: d2 :: rest) c log =
        .ok (usb.outTransfer log.length,
          log ++ [OutCall.mk m.bAddress (m.epInfo epDataOutIndex).epAddr 4
            [(c <<< 4) ||| (s >>> 4), s, d1, d2]])) ∧
    ((s >>> 4 = 0xC ∨ s >>> 4 = 0xD) →
      SendData usb m fuel stack (s :: d1 :: d2 :: rest) c log =
        .ok (usb.outTransfer log.length,
          log ++ [OutCall.mk m.bAddress (m.epInfo epDataOutIndex).epAddr 4
            [(c <<< 4) ||| (s >>> 4), s, d1, 0]])) := by
  have hm := and_f0 s hs
  have hb := header_lt c (s >>> 4) hc (nibble_lt s hs)
  have hlt : ∀ k, s >>> 4 = k → k < 15 → s < 0xf0 := by
    intro k hk hk2
    rw [Nat.shiftRight_eq_div_pow] at hk
    omega
  constructor
  · intro h
    have h240 : s < 0xf0 := by
      rcases h with h | h | h | h | h <;> exact hlt _ h (by norm_num)
    have hne : s ≠ 0xf0 := by omega
    rcases h with h | h | h | h | h <;> rw [h] at hb hm <;>
      simp [SendData, rd, bind, Except.bind, hne, h240, hm, Nat.mod_eq_of_lt hb, h, switchMsg,
        outTransfer4, packetCall]
  · intro h
    have h240 : s < 0xf0 := by
      rcases h with h | h <;> exact hlt _ h (by norm_num)
    have hne : s ≠ 0xf0 := by omega
    rcases h with h | h <;> rw [h] at hb hm <;>
      simp [SendData, rd, bind, Except.bind, hne, h240, hm, Nat.mod_eq_of_lt hb, h, switchMsg,
        outTransfer4, packetCall]

/-- C2. `SendData` on a system message other than SysEx start, on cable `c`: the single packet
issued is `[(c<<4)|0x2, s, d1, 0]` when `s` is 0xF1 or 0xF3, `[(c<<4)|0x3, 0xF2, d1, d2]` when
`s` is 0xF2, and `[(c<<4)|0xF, s, 0, 0]` for every `s` in 0xF8..0xFF. -/
theorem SendData_system (usb : USB) (m : MIDI) (fuel : Nat) (stack rest : List Nat)
    (log : List OutCall) (c s d1 d2 : Nat) (hc : c < 16) :
    ((s = 0xF1 ∨ s = 0xF3) →
      SendData usb m fuel stack (s :: d1 :: d2 :: rest) c log =
        .ok (usb.outTransfer log.length,
          log ++ [OutCall.mk m.bAddress (m.epInfo epDataOutIndex).epAddr 4
            [(c <<< 4) ||| 0x2, s, d1, 0]])) ∧
    (s = 0xF2 →
      SendData usb m fuel stack (s :: d1 :: d2 :: rest) c log =
        .ok (usb.outTransfer log.length,
          log ++ [OutCall.mk m.bAddress (m.epInfo epDataOutIndex).epAddr 4
            [(c <<< 4) ||| 0x3, 0xF2, d1, d2]])) ∧
    ((0xF8 ≤ s ∧ s ≤ 0xFF) →
      SendData usb m fuel stack (s :: d1 :: d2 :: rest) c log =
        .ok (usb.outTransfer log.length,
          log ++ [OutCall.mk m.bAddress (m.epInfo epDataOutIndex).epAddr 4
            [(c <<< 4) ||| 0xF, s, 0, 0]])) := by
  have h2 := header_byte c 2 hc (by norm_num)
  have h3 := header_byte c 3 hc (by norm_num)
  have hf := header_byte c 0xF hc (by norm_num)
  refine ⟨?_, ?_, ?_⟩
  · intro h
    rcases h with h | h <;> subst h <;>
      simp [SendData, rd, bind, Except.bind, switchMsg, outTransfer4, packetCall, h2]
  · intro h
    subst h
    simp [SendData, rd, bind, Except.bind, switchMsg, outTransfer4, packetCall, h3]
  · rintro ⟨hlo, hhi⟩
    interval_cases s <;>
      simp [SendData, rd, bind, Except.bind, switchMsg, outTransfer4, packetCall, hf,
        Nat.shiftRight_eq_div_pow]

/-! ## SysEx streams: the claims -/

theorem stream_length_ge (data : List Nat) (L : Nat) (h0 : data[0]? = some 0xF0)
    (h7 : data[L - 1]? = some 0xF7) : 2 ≤ L := by
  by_contra hlt
  have hz : L - 1 = 0 := by omega
  rw [hz, h0] at h7
  simp at h7

/-- C3. SysEx segmentation. For a stream that begins with 0xF0 and whose first 0xF7 is at index
`L - 1`, a cable `c` in 0..15 and a transport whose `outTransfer` always succeeds, `SendData`
(and `SendDataMulti`) returns 0 having issued exactly `⌈L/3⌉` packets; every packet but the last
has first byte `(c<<4)|0x4`, and the last has first byte `(c<<4)|(0x4+i)` with
`i = ((L-1) mod 3) + 1`, a code index of 0x5, 0x6 or 0x7. The stream `F0 01 02 03 F7` gives
`[c<<4|4, F0, 01, 02]` then `[c<<4|6, 03, F7, 00]`. -/
theorem SendData_sysex_segmentation (usb : USB) (m : MIDI) (fuel : Nat) (stack data : List Nat)
    (c L : Nat) (log : List OutCall) (hstack : stack.length = 4) (hc : c < 16)
    (h0 : data[0]? = some 0xF0) (h7 : data[L - 1]? = some 0xF7)
    (hfirst : ∀ j, j < L - 1 → data[j]? ≠ some 0xF7)
    (hok : ∀ n, usb.outTransfer n = 0) (hfuel : L + 4 ≤ fuel) :
    (∃ pkts : List (List Nat),
      SendData usb m fuel stack data c log = .ok (0, log ++ pkts.map (packetCall m)) ∧
      SendDataMulti usb m fuel stack data c log = .ok (0, log ++ pkts.map (packetCall m)) ∧
      pkts.length = (L + 2) / 3 ∧
      (∀ j, j + 1 < pkts.length →
        ∃ p1 p2 p3, pkts[j]? = some [(c <<< 4) ||| 0x4, p1, p2, p3]) ∧
      (∃ p1 p2 p3,
        pkts.getLast? = some [(c <<< 4) ||| (0x4 + ((L - 1) % 3 + 1)), p1, p2, p3]) ∧
      (0x4 + ((L - 1) % 3 + 1) = 0x5 ∨ 0x4 + ((L - 1) % 3 + 1) = 0x6 ∨
        0x4 + ((L - 1) % 3 + 1) = 0x7)) ∧
    SendData usb m fuel stack [0xF0, 0x01, 0x02, 0x03, 0xF7] c log =
      .ok (0, log ++ [packetCall m [(c <<< 4) ||| 0x4, 0xF0, 0x01, 0x02],
        packetCall m [(c <<< 4) ||| 0x6, 0x03, 0xF7, 0x00]]) := by
  have hL2 := stream_length_ge data L h0 h7
  have hL : 1 ≤ L := by omega
  obtain ⟨hsplit, hlen, hnot⟩ := split_at_terminator data L hL h7 hfirst
  obtain ⟨hmulti, hsend⟩ := SendDataMulti_frames usb m fuel stack data c L log hstack hL h7
    hfirst (by omega)
  have htake := take_terminator data L hL h7
  have hFlen := sysexFrames_length c (data.take (L - 1)) hnot
  have hne : sysexFrames c (data.take L) ≠ [] := by
    intro h
    rw [htake] at h
    rw [h] at hFlen
    simp at hFlen
  have htx := transmit_ok usb m (sysexFrames c (data.take L)) 0 log (fun j _ => hok _) hne
  refine ⟨⟨sysexFrames c (data.take L), ?_, ?_, ?_, ?_, ?_, ?_⟩, ?_⟩
  · rw [hsend h0, htx]
  · rw [hmulti, htx]
  · rw [htake, hFlen, hlen]; omega
  · rw [htake]
    exact sysexFrames_heads c hc _ hnot
  · obtain ⟨pkt, hlast, hp4, hp0, -, -⟩ := sysexFrames_last c hc (data.take (L - 1)) hnot
    rw [hlen] at hp0
    match pkt, hp4 with
    | [q0, q1, q2, q3], _ =>
      refine ⟨q1, q2, q3, ?_⟩
      rw [htake, hlast]
      simp only [List.getElem?_cons_zero, Option.some.injEq] at hp0
      rw [hp0]
  · omega
  · have h5 := (SendDataMulti_frames usb m fuel stack [0xF0, 0x01, 0x02, 0x03, 0xF7] c 5 log
      hstack (by norm_num) (by simp) (by
        intro j hj
        have hj4 : j < 4 := hj
        interval_cases j <;> simp) (by omega)).2 (by simp)
    rw [h5]
    simp [sysexFrames, transmit, outTransfer4, hok, header_byte c 4 hc, header_byte c 6 hc]

theorem getElem?_of_take_eq (data data1 : List Nat) (L j : Nat) (hj : j < L)
    (h : data1.take L = data.take L) : data1[j]? = data[j]? := by
  have h1 : (data1.take L)[j]? = data1[j]? := by rw [List.getElem?_take, if_pos hj]
  have h2 : (data.take L)[j]? = data[j]? := by rw [List.getElem?_take, if_pos hj]
  rw [← h1, ← h2, h]

/-- C4. SysEx reconstruction. For a stream that begins with 0xF0 and whose first 0xF7 is at index
`L - 1`, and a transport that always succeeds, the receiver `sysexReceive`, which looks only at
the code index of each packet, recovers from the packets issued by `SendData` exactly the first
`L` bytes of the stream; the payload positions after the terminator in the last packet are zero;
and the encoder reads no byte at an index above `L - 1`: it produces the same result on every
buffer that agrees with the stream on the first `L` bytes, in particular on the buffer that
holds these `L` bytes only. -/
theorem SendData_sysex_roundtrip (usb : USB) (m : MIDI) (fuel : Nat) (stack data : List Nat)
    (c L : Nat) (log : List OutCall) (hstack : stack.length = 4) (hc : c < 16)
    (h0 : data[0]? = some 0xF0) (h7 : data[L - 1]? = some 0xF7)
    (hfirst : ∀ j, j < L - 1 → data[j]? ≠ some 0xF7)
    (hok : ∀ n, usb.outTransfer n = 0) (hfuel : L + 4 ≤ fuel) :
    ∃ pkts : List (List Nat),
      SendData usb m fuel stack data c log = .ok (0, log ++ pkts.map (packetCall m)) ∧
      sysexReceive pkts = data.take L ∧
      (∃ last, pkts.getLast? = some last ∧ last.length = 4 ∧
        last[(L - 1) % 3 + 1]? = some 0xF7 ∧
        ∀ j, (L - 1) % 3 + 1 < j → j < 4 → last[j]? = some 0) ∧
      (∀ data1 : List Nat, data1.take L = data.take L →
        SendData usb m fuel stack data1 c log = SendData usb m fuel stack data c log) ∧
      SendData usb m fuel stack (data.take L) c log = SendData usb m fuel stack data c log := by
  have hL2 := stream_length_ge data L h0 h7
  have hL : 1 ≤ L := by omega
  obtain ⟨hsplit, hlen, hnot⟩ := split_at_terminator data L hL h7 hfirst
  have hsend := (SendDataMulti_frames usb m fuel stack data c L log hstack hL h7
    hfirst (by omega)).2 h0
  have htake := take_terminator data L hL h7
  have hgen : ∀ data1 : List Nat, data1.take L = data.take L →
      SendData usb m fuel stack data1 c log = SendData usb m fuel stack data c log := by
    intro data1 h1
    have e0 := getElem?_of_take_eq data data1 L 0 (by omega) h1
    have e7 := getElem?_of_take_eq data data1 L (L - 1) (by omega) h1
    have hsend1 := (SendDataMulti_frames usb m fuel stack data1 c L log hstack hL
      (by rw [e7]; exact h7)
      (by
        intro j hj
        rw [getElem?_of_take_eq data data1 L j (by omega) h1]
        exact hfirst j hj)
      (by omega)).2 (by rw [e0]; exact h0)
    rw [hsend1, hsend, h1]
  have hFlen := sysexFrames_length c (data.take (L - 1)) hnot
  have hne : sysexFrames c (data.take L) ≠ [] := by
    intro h
    rw [htake] at h
    rw [h] at hFlen
    simp at hFlen
  have htx := transmit_ok usb m (sysexFrames c (data.take L)) 0 log (fun j _ => hok _) hne
  refine ⟨sysexFrames c (data.take L), ?_, ?_, ?_, hgen, ?_⟩
  · rw [hsend, htx]
  · rw [htake]
    exact sysexReceive_frames c hc _ hnot
  · obtain ⟨pkt, hlast, hp4, -, hp7, hzero⟩ := sysexFrames_last c hc (data.take (L - 1)) hnot
    rw [hlen] at hp7 hzero
    exact ⟨pkt, by rw [htake]; exact hlast, hp4, hp7, hzero⟩
  · exact hgen _ (by rw [List.take_take, Nat.min_self])

/-- C5. A SysEx send stops on a transport error. For a stream whose first 0xF7 is at index
`L - 1` (so that the stream has `⌈L/3⌉` packets): if the first `k - 1` `outTransfer` calls of
`SendDataMulti` succeed and the `k`-th, `k` not above the packet count, returns a non-zero
status `e`, then `SendDataMulti` issues exactly `k` calls and returns `e`; if all calls succeed
it issues all `⌈L/3⌉` packets, the last of which is the terminal packet (code index
`0x4 + ((L-1) mod 3) + 1` on a cable `c` in 0..15), and returns 0. -/
theorem SendDataMulti_stops_on_error (usb : USB) (m : MIDI) (fuel : Nat)
    (stack data : List Nat) (c L : Nat) (log : List OutCall) (hstack : stack.length = 4)
    (hL : 1 ≤ L) (h7 : data[L - 1]? = some 0xF7)
    (hfirst : ∀ j, j < L - 1 → data[j]? ≠ some 0xF7) (hfuel : L + 4 ≤ fuel) :
    (∀ k e : Nat, 1 ≤ k → k ≤ (L + 2) / 3 →
      (∀ j, j < k - 1 → usb.outTransfer (log.length + j) = 0) →
      usb.outTransfer (log.length + (k - 1)) = e → e ≠ 0 →
      ∃ calls : List OutCall,
        SendDataMulti usb m fuel stack data c log = .ok (e, log ++ calls) ∧
        calls.length = k) ∧
    ((∀ j, j < (L + 2) / 3 → usb.outTransfer (log.length + j) = 0) →
      ∃ calls : List OutCall,
        SendDataMulti usb m fuel stack data c log = .ok (0, log ++ calls) ∧
        calls.length = (L + 2) / 3 ∧
        (c < 16 → ∃ p1 p2 p3, calls.getLast? =
          some (packetCall m [(c <<< 4) ||| (0x4 + ((L - 1) % 3 + 1)), p1, p2, p3]))) := by
  obtain ⟨hsplit, hlen, hnot⟩ := split_at_terminator data L hL h7 hfirst
  have hmulti := (SendDataMulti_frames usb m fuel stack data c L log hstack hL h7
    hfirst (by omega)).1
  have htake := take_terminator data L hL h7
  have hFlen : (sysexFrames c (data.take L)).length = (L + 2) / 3 := by
    rw [htake, sysexFrames_length c (data.take (L - 1)) hnot, hlen]
    omega
  constructor
  · intro k e hk1 hk hprev he hne
    have hfail := transmit_fail usb m (sysexFrames c (data.take L)) (k - 1) 0 log
      (by rw [hFlen]; omega) hprev (by rw [he]; exact hne)
    refine ⟨((sysexFrames c (data.take L)).take (k - 1 + 1)).map (packetCall m), ?_, ?_⟩
    · rw [hmulti, hfail, he]
    · rw [List.length_map, List.length_take, hFlen]
      omega
  · intro hall
    have hne : sysexFrames c (data.take L) ≠ [] := by
      intro h
      rw [h] at hFlen
      simp at hFlen
      omega
    have htx := transmit_ok usb m (sysexFrames c (data.take L)) 0 log
      (by intro j hj; exact hall j (by rw [← hFlen]; exact hj)) hne
    refine ⟨(sysexFrames c (data.take L)).map (packetCall m), ?_, ?_, ?_⟩
    · rw [hmulti, htx]
    · rw [List.length_map, hFlen]
    · intro hc
      obtain ⟨pkt, hlast, hp4, hp0, -, -⟩ := sysexFrames_last c hc (data.take (L - 1)) hnot
      rw [hlen] at hp0
      match pkt, hp4 with
      | [q0, q1, q2, q3], _ =>
        refine ⟨q1, q2, q3, ?_⟩
        simp only [List.getElem?_cons_zero, Option.some.injEq] at hp0
        rw [List.getLast?_map, htake, hlast, hp0]
        rfl

/-! ## Decoding -/

theorem RcvData_payload (usb : USB) (m : MIDI) (n p0 p1 p2 p3 o0 o1 o2 : Nat)
    (rest orest : List Nat) (hpoll : m.bPollEnable = true)
    (hin : usb.inTransfer m.bAddress (m.epInfo epDataInIndex).epAddr
      (m.epInfo epDataInIndex).maxPktSize = (0, n, p0 :: p1 :: p2 :: p3 :: rest))
    (hz : ¬ (p0 = 0 ∧ p1 = 0 ∧ p2 = 0 ∧ p3 = 0)) :
    RcvData usb m (o0 :: o1 :: o2 :: orest) = .ok (true, p1 :: p2 :: p3 :: orest) := by
  simp [RcvData, RcvDataBytes, hpoll, hin, rd, wr, bind, Except.bind, hz]

/-- C6. Decode. When polling is enabled and `inTransfer` succeeds leaving a buffer whose first
four bytes are `p0, p1, p2, p3`, `RcvData(outBuf)` returns false with `outBuf` untouched if and
only if the four bytes are all zero, and otherwise returns true with `p1, p2, p3` stored in
`outBuf[0..2]`, whatever the code index in `p0` is. -/
theorem RcvData_decode (usb : USB) (m : MIDI) (n p0 p1 p2 p3 o0 o1 o2 : Nat)
    (rest orest : List Nat) (hpoll : m.bPollEnable = true)
    (hin : usb.inTransfer m.bAddress (m.epInfo epDataInIndex).epAddr
      (m.epInfo epDataInIndex).maxPktSize = (0, n, p0 :: p1 :: p2 :: p3 :: rest)) :
    (RcvData usb m (o0 :: o1 :: o2 :: orest) = .ok (false, o0 :: o1 :: o2 :: orest) ↔
      (p0 = 0 ∧ p1 = 0 ∧ p2 = 0 ∧ p3 = 0)) ∧
    (¬ (p0 = 0 ∧ p1 = 0 ∧ p2 = 0 ∧ p3 = 0) →
      RcvData usb m (o0 :: o1 :: o2 :: orest) = .ok (true, p1 :: p2 :: p3 :: orest)) := by
  by_cases hz : p0 = 0 ∧ p1 = 0 ∧ p2 = 0 ∧ p3 = 0
  · simp [RcvData, RcvDataBytes, hpoll, hin, rd, bind, Except.bind, hz]
  · have hres : RcvData usb m (o0 :: o1 :: o2 :: orest) =
        .ok (true, p1 :: p2 :: p3 :: orest) :=
      RcvData_payload usb m n p0 p1 p2 p3 o0 o1 o2 rest orest hpoll hin hz
    refine ⟨?_, fun _ => hres⟩
    rw [hres]
    simp [hz]

/-! ## Round trip of short messages -/

theorem SendData_short (usb : USB) (m : MIDI) (fuel : Nat) (stack rest : List Nat)
    (log : List OutCall) (c s d1 d2 : Nat) (hs : s ≠ 0xf0) :
    SendData usb m fuel stack (s :: d1 :: d2 :: rest) c log =
      .ok (usb.outTransfer log.length,
        log ++ [packetCall m (switchMsg c (if s < 0xf0 then s &&& 0xf0 else s)
          [((c <<< 4) ||| (s >>> 4)) % 256, s, d1, d2])]) := by
  simp [SendData, rd, bind, Except.bind, hs, outTransfer4]

/-- The `switch` of `SendData` leaves the status byte in place, and running it again on its own
output with the same first byte changes nothing. -/
theorem switchMsg_shape (c msg b0 s d1 d2 : Nat) :
    ∃ h r1 r2, switchMsg c msg [b0, s, d1, d2] = [h, s, r1, r2] ∧
      switchMsg c msg [b0, s, r1, r2] = [h, s, r1, r2] := by
  unfold switchMsg
  split_ifs <;> simp

/-- C7. Round trip of a short message. For a message `s, d1, d2` with status `s ≥ 0x80` other
than 0xF0 and every cable `c` (in 0..15 in particular), `SendData` emits one packet `[h, s, r1, r2]`; a decoder that
receives this packet never answers "no data" and returns `s, r1, r2`, where `r1, r2` are
`d1, d2` for status nibbles 8, 9, A, B, E and for 0xF2, are `d1, 0` for nibbles C, D and for
0xF1, 0xF3, and are `0, 0` from 0xF4 on (so for 0xF8..0xFF); encoding `s, r1, r2` again on the
same cable gives the same packet. -/
theorem SendData_RcvData_roundtrip (usb : USB) (m : MIDI) (fuel : Nat) (stack rest : List Nat)
    (log : List OutCall) (c s d1 d2 : Nat) (hs : s < 256) (h80 : 0x80 ≤ s) (hf0 : s ≠ 0xF0) :
    ∃ h r1 r2,
      SendData usb m fuel stack (s :: d1 :: d2 :: rest) c log =
        .ok (usb.outTransfer log.length, log ++ [packetCall m [h, s, r1, r2]]) ∧
      (∀ (dev : USB) (rx : MIDI) (n o0 o1 o2 : Nat) (junk orest : List Nat),
        rx.bPollEnable = true →
        dev.inTransfer rx.bAddress (rx.epInfo epDataInIndex).epAddr
          (rx.epInfo epDataInIndex).maxPktSize = (0, n, [h, s, r1, r2] ++ junk) →
        RcvData dev rx (o0 :: o1 :: o2 :: orest) = .ok (true, s :: r1 :: r2 :: orest)) ∧
      ((s >>> 4 = 0x8 ∨ s >>> 4 = 0x9 ∨ s >>> 4 = 0xA ∨ s >>> 4 = 0xB ∨ s >>> 4 = 0xE ∨
        s = 0xF2) → r1 = d1 ∧ r2 = d2) ∧
      ((s >>> 4 = 0xC ∨ s >>> 4 = 0xD ∨ s = 0xF1 ∨ s = 0xF3) → r1 = d1 ∧ r2 = 0) ∧
      (0xF4 ≤ s → r1 = 0 ∧ r2 = 0) ∧
      ∀ rest1 : List Nat, SendData usb m fuel stack (s :: r1 :: r2 :: rest1) c log =
        .ok (usb.outTransfer log.length, log ++ [packetCall m [h, s, r1, r2]]) := by
  obtain ⟨h, r1, r2, hsw, hidem⟩ := switchMsg_shape c (if s < 0xf0 then s &&& 0xf0 else s)
    (((c <<< 4) ||| (s >>> 4)) % 256) s d1 d2
  have hm := and_f0 s hs
  have hdiv : s >>> 4 = s / 16 := by rw [Nat.shiftRight_eq_div_pow]
  refine ⟨h, r1, r2, ?_, ?_, ?_, ?_, ?_, ?_⟩
  · rw [SendData_short usb m fuel stack rest log c s d1 d2 hf0, hsw]
  · intro dev rx n o0 o1 o2 junk orest hpoll hin
    have hnz : ¬ (h = 0 ∧ s = 0 ∧ r1 = 0 ∧ r2 = 0) := by
      rintro ⟨-, hs0, -, -⟩
      omega
    exact RcvData_payload dev rx n h s r1 r2 o0 o1 o2 junk orest hpoll hin hnz
  · intro hcase
    have : switchMsg c (if s < 0xf0 then s &&& 0xf0 else s)
        [((c <<< 4) ||| (s >>> 4)) % 256, s, d1, d2] =
        [switchMsg c (if s < 0xf0 then s &&& 0xf0 else s)
          [((c <<< 4) ||| (s >>> 4)) % 256, s, d1, d2] |>.getD 0 0, s, d1, d2] := by
      rcases hcase with h8 | h8 | h8 | h8 | h8 | h8
      · have hlt : s < 0xf0 := by omega
        rw [h8] at hm
        simp [switchMsg, hlt, hm]
      · have hlt : s < 0xf0 := by omega
        rw [h8] at hm
        simp [switchMsg, hlt, hm]
      · have hlt : s < 0xf0 := by omega
        rw [h8] at hm
        simp [switchMsg, hlt, hm]
      · have hlt : s < 0xf0 := by omega
        rw [h8] at hm
        simp [switchMsg, hlt, hm]
      · have hlt : s < 0xf0 := by omega
        rw [h8] at hm
        simp [switchMsg, hlt, hm]
      · subst h8
        simp [switchMsg]
    rw [hsw] at this
    simp only [List.cons.injEq, and_true, true_and] at this
    exact ⟨this.2.1, this.2.2⟩
  · intro hcase
    have : switchMsg c (if s < 0xf0 then s &&& 0xf0 else s)
        [((c <<< 4) ||| (s >>> 4)) % 256, s, d1, d2] =
        [switchMsg c (if s < 0xf0 then s &&& 0xf0 else s)
          [((c <<< 4) ||| (s >>> 4)) % 256, s, d1, d2] |>.getD 0 0, s, d1, 0] := by
      rcases hcase with h8 | h8 | h8 | h8
      · have hlt : s < 0xf0 := by omega
        rw [h8] at hm
        simp [switchMsg, hlt, hm]
      · have hlt : s < 0xf0 := by omega
        rw [h8] at hm
        simp [switchMsg, hlt, hm]
      · subst h8
        simp [switchMsg]
      · subst h8
        simp [switchMsg]
    rw [hsw] at this
    simp only [List.cons.injEq, and_true, true_and] at this
    exact ⟨this.2.1, this.2.2⟩
  · intro hcase
    have hnlt : ¬ s < 0xf0 := by omega
    have : switchMsg c (if s < 0xf0 then s &&& 0xf0 else s)
        [((c <<< 4) ||| (s >>> 4)) % 256, s, d1, d2] =
        [((c <<< 4) ||| (s >>> 4)) % 256, s, 0, 0] := by
      have h1 : s ≠ 0xf2 := by omega
      have h2 : s ≠ 0xf1 := by omega
      have h3 : s ≠ 0xf3 := by omega
      have h4 : s ≠ 0x80 ∧ s ≠ 0x90 ∧ s ≠ 0xa0 ∧ s ≠ 0xb0 ∧ s ≠ 0xe0 ∧ s ≠ 0xc0 ∧
          s ≠ 0xd0 := by omega
      simp [switchMsg, hnlt, h1, h2, h3, h4]
    rw [hsw] at this
    simp only [List.cons.injEq, and_true, true_and] at this
    exact ⟨this.2.1, this.2.2⟩
  · intro rest1
    rw [SendData_short usb m fuel stack rest1 log c s r1 r2 hf0]
    have hagain : switchMsg c (if s < 0xf0 then s &&& 0xf0 else s)
        [((c <<< 4) ||| (s >>> 4)) % 256, s, r1, r2] = [h, s, r1, r2] := by
      exact hidem
    rw [hagain]

/-! ## Descriptor scanner: the scan of a well-formed configuration -/

theorem rd_ok (d : List Nat) (k : Nat) (hk : k < d.length) : rd d k = .ok (d.getD k 0) := by
  simp [rd, List.getD_eq_getElem?_getD, List.getElem?_eq_getElem hk]

theorem rd_inner (pre d post : List Nat) (k : Nat) (hk : k < d.length) :
    rd (pre ++ (d ++ post)) (pre.length + k) = .ok (d.getD k 0) := by
  rw [rd_append, ← rd_ok d k hk]
  simp [rd, List.getElem?_append_left hk]

/-- The `switch` of the scanner, run at the start of a descriptor `d` that lies inside the
buffer, has the effect `descrStep` of `d`. -/
theorem switchDescr_inner (K : Header) (pre d post : List Nat) (m : MIDI) (isMidi : Bool)
    (hwf : wfDescr K d) :
    switchDescr K (pre ++ (d ++ post)) pre.length (d.getD 1 0) m isMidi =
      .ok (descrStep K (m, isMidi) d) := by
  obtain ⟨h2, -, hcfg, hifc, hep⟩ := hwf
  unfold descrStep switchDescr epDesc_bmAttributes epDesc_bEndpointAddress
    epDesc_wMaxPacketSize
  by_cases h1 : d.getD 1 0 = K.USB_DESCRIPTOR_CONFIGURATION
  · have h6 := hcfg h1
    simp only [if_pos h1, bind, Except.bind, Nat.zero_add,
      rd_inner pre d post 5 (by omega), rd_ok d 5 (by omega)]
  · by_cases h3 : d.getD 1 0 = K.USB_DESCRIPTOR_INTERFACE
    · have h7 := hifc h3
      simp only [if_neg h1, if_pos h3, bind, Except.bind, Nat.zero_add,
        rd_inner pre d post 5 (by omega), rd_ok d 5 (by omega),
        rd_inner pre d post 6 (by omega), rd_ok d 6 (by omega)]
      split_ifs <;> rfl
    · by_cases h4 : d.getD 1 0 = K.USB_DESCRIPTOR_ENDPOINT
      · have h6 := hep h4
        simp only [if_neg h1, if_neg h3, if_pos h4, bind, Except.bind, Nat.zero_add,
          rd_inner pre d post 2 (by omega), rd_ok d 2 (by omega),
          rd_inner pre d post 3 (by omega), rd_ok d 3 (by omega),
          rd_inner pre d post 4 (by omega), rd_ok d 4 (by omega),
          rd_inner pre d post 5 (by omega), rd_ok d 5 (by omega)]
        split_ifs <;> rfl
      · simp only [if_neg h1, if_neg h3, if_neg h4]

/-- The scan of a buffer that holds the descriptors `ds` one after the other, started at the
first of them, runs the effect of each descriptor in turn. -/
theorem scanLoop_descrs (K : Header) :
    ∀ (ds : List (List Nat)) (pre post : List Nat) (fuel : Nat) (m : MIDI) (isMidi : Bool),
      (∀ d ∈ ds, wfDescr K d) → ds.length < fuel →
      scanLoop K (pre ++ (ds.flatten ++ post)) (pre.length + ds.flatten.length) fuel
          pre.length m isMidi =
        .ok (ds.foldl (descrStep K) (m, isMidi)).1
  | [], pre, post, fuel, m, isMidi, _, hfuel => by
    obtain ⟨g, rfl⟩ : ∃ g, fuel = g + 1 := ⟨fuel - 1, by simp at hfuel; omega⟩
    simp [scanLoop]
  | d :: ds, pre, post, fuel, m, isMidi, hwf, hfuel => by
    obtain ⟨g, rfl⟩ : ∃ g, fuel = g + 1 := ⟨fuel - 1, by simp at hfuel; omega⟩
    have hd := hwf d (by simp)
    have hlen0 : d.getD 0 0 = d.length := hd.2.1
    have h2 : 2 ≤ d.length := hd.1
    have hbuf : pre ++ ((d :: ds).flatten ++ post) = pre ++ (d ++ (ds.flatten ++ post)) := by
      simp
    have hbuf2 : pre ++ ((d :: ds).flatten ++ post) = (pre ++ d) ++ (ds.flatten ++ post) := by
      simp
    have hrec := scanLoop_descrs K ds (pre ++ d) post g (descrStep K (m, isMidi) d).1
      (descrStep K (m, isMidi) d).2 (fun e he => hwf e (by simp [he]))
      (by simp at hfuel; omega)
    have hlt : pre.length < pre.length + (d :: ds).flatten.length := by
      simp; omega
    have hr0 : rd (pre ++ (d ++ (ds.flatten ++ post))) pre.length = .ok d.length := by
      have := rd_inner pre d (ds.flatten ++ post) 0 (by omega)
      rw [hlen0] at this
      simpa using this
    rw [scanLoop]
    simp only [hlt, if_true]
    rw [hbuf]
    simp only [hr0, rd_inner pre d (ds.flatten ++ post) 1 (by omega),
      switchDescr_inner K pre d (ds.flatten ++ post) m isMidi hd, bind, Except.bind]
    rw [← hbuf, hbuf2]
    have htot : pre.length + (d :: ds).flatten.length =
        (pre ++ d).length + ds.flatten.length := by
      simp; omega
    have hptr : pre.length + d.length = (pre ++ d).length := by simp
    rw [htot, hptr, hrec]
    rfl

/-! ### The effect of one descriptor -/

theorem descrStep_config (K : Header) (m : MIDI) (b : Bool) (d : List Nat) (hwf : wfDescr K d)
    (ht : d.getD 1 0 = K.USB_DESCRIPTOR_CONFIGURATION) :
    descrStep K (m, b) d = ({ m with bConfNum := d.getD 5 0 }, b) := by
  have h6 := hwf.2.2.1 ht
  unfold descrStep switchDescr
  simp only [if_pos ht, bind, Except.bind, Nat.zero_add, rd_ok d 5 (by omega)]

theorem descrStep_interface (K : Header) (hK : K.distinct) (m : MIDI) (b : Bool) (d : List Nat)
    (hwf : wfDescr K d) (ht : d.getD 1 0 = K.USB_DESCRIPTOR_INTERFACE) :
    descrStep K (m, b) d =
      if d.getD 5 0 = K.USB_CLASS_AUDIO ∧ d.getD 6 0 = K.USB_SUBCLASS_MIDISTREAMING then
        ({ m with isMidiFound := true }, true)
      else (m, false) := by
  have h7 := hwf.2.2.2.1 ht
  have h1 : ¬ d.getD 1 0 = K.USB_DESCRIPTOR_CONFIGURATION := by
    rw [ht]; exact fun h => hK.1 h.symm
  unfold descrStep switchDescr
  simp only [if_neg h1, if_pos ht, bind, Except.bind, Nat.zero_add, rd_ok d 5 (by omega),
    rd_ok d 6 (by omega)]
  by_cases hc : d.getD 5 0 = K.USB_CLASS_AUDIO
  · by_cases hs : d.getD 6 0 = K.USB_SUBCLASS_MIDISTREAMING
    · rw [if_pos hc, if_pos hs, if_pos ⟨hc, hs⟩]
    · rw [if_pos hc, if_neg hs, if_neg (fun h => hs h.2)]
  · rw [if_neg hc, if_neg (fun h => hc h.1)]

theorem descrStep_endpoint (K : Header) (hK : K.distinct) (m : MIDI) (b : Bool) (d : List Nat)
    (hwf : wfDescr K d) (ht : d.getD 1 0 = K.USB_DESCRIPTOR_ENDPOINT) :
    descrStep K (m, b) d =
      if d.getD 3 0 &&& 0x02 = 2 then
        ({ m with
            epInfo := Function.update m.epInfo (roleIndex b d)
              (epRecord (m.epInfo (roleIndex b d)) d),
            bNumEP := (m.bNumEP + 1) % 256 }, b)
      else (m, b) := by
  have h6 := hwf.2.2.2.2 ht
  have h1 : ¬ d.getD 1 0 = K.USB_DESCRIPTOR_CONFIGURATION := by
    rw [ht]; exact fun h => hK.2.1 h.symm
  have h3 : ¬ d.getD 1 0 = K.USB_DESCRIPTOR_INTERFACE := by
    rw [ht]; exact fun h => hK.2.2 h.symm
  unfold descrStep switchDescr epDesc_bmAttributes epDesc_bEndpointAddress
    epDesc_wMaxPacketSize roleIndex epRecord isIn wMaxPacketSize
  simp only [if_neg h1, if_neg h3, if_pos ht, bind, Except.bind, Nat.zero_add,
    rd_ok d 2 (by omega), rd_ok d 3 (by omega), rd_ok d 4 (by omega), rd_ok d 5 (by omega)]
  split_ifs <;> rfl

theorem descrStep_other (K : Header) (m : MIDI) (b : Bool) (d : List Nat)
    (h1 : d.getD 1 0 ≠ K.USB_DESCRIPTOR_CONFIGURATION)
    (h3 : d.getD 1 0 ≠ K.USB_DESCRIPTOR_INTERFACE)
    (h4 : d.getD 1 0 ≠ K.USB_DESCRIPTOR_ENDPOINT) :
    descrStep K (m, b) d = (m, b) := by
  unfold descrStep switchDescr
  simp only [if_neg h1, if_neg h3, if_neg h4]

/-- `parseConfigDescr` on a device that answers both `getConfDescr` calls with success, announces
in bytes 2 and 3 the length of its configuration, within the capacity of the buffer, and delivers
the well-formed descriptors `ds`: the result is the effect of the descriptors in turn. -/
theorem parseConfigDescr_descrs (K : Header) (usb : USB) (fuel : Nat) (m : MIDI)
    (addr conf : Nat) (ds : List (List Nat)) (hdr rest : List Nat) (lo hi : Nat)
    (hfirst : usb.getConfDescr addr 0 4 conf = (0, hdr))
    (hlo : hdr[2]? = some lo) (hhi : hdr[3]? = some hi)
    (htot : lo ||| (hi <<< 8) = ds.flatten.length)
    (hcap : ds.flatten.length ≤ K.DESC_BUFF_SIZE)
    (hsecond : usb.getConfDescr addr 0 ds.flatten.length conf = (0, ds.flatten ++ rest))
    (hwf : ∀ d ∈ ds, wfDescr K d) (hfuel : ds.length < fuel) :
    parseConfigDescr K usb fuel m addr conf = .ok (ds.foldl (descrStep K) (m, false)).1 := by
  have hscan := scanLoop_descrs K ds [] rest fuel m false hwf hfuel
  simp only [List.nil_append, List.length_nil, Nat.zero_add] at hscan
  have hclamp : ¬ ds.flatten.length > K.DESC_BUFF_SIZE := by omega
  simp only [parseConfigDescr, hfirst, rd, hlo, hhi, bind, Except.bind, htot, hclamp,
    hsecond, ne_eq, not_true_eq_false, if_false]
  exact hscan

theorem bulk_registered (a : Nat) (h : a &&& 0x03 = 0x02) : a &&& 0x02 = 2 := by
  have h1 : a &&& 0x02 = a &&& (0x03 &&& 0x02) := rfl
  rw [h1, ← Nat.land_assoc, h]
  rfl

theorem descrStep_registered (K : Header) (hK : K.distinct) (m : MIDI) (b : Bool)
    (d : List Nat) (hwf : wfDescr K d) (hr : isRegisteredEndpoint K d) :
    descrStep K (m, b) d =
      ({ m with
          epInfo := Function.update m.epInfo (roleIndex b d)
            (epRecord (m.epInfo (roleIndex b d)) d),
          bNumEP := (m.bNumEP + 1) % 256 }, b) := by
  rw [descrStep_endpoint K hK m b d hwf hr.1, if_pos hr.2]

theorem descrStep_midi_interface (K : Header) (hK : K.distinct) (m : MIDI) (b : Bool)
    (d : List Nat) (hwf : wfDescr K d) (hi : isMidiInterface K d) :
    descrStep K (m, b) d = ({ m with isMidiFound := true }, true) := by
  rw [descrStep_interface K hK m b d hwf hi.1, if_pos hi.2]

/-! ## Scan of a MIDI configuration -/

/-- C8 (as amended). Scan of a configuration made of a configuration descriptor, one interface
descriptor of class Audio and subclass MIDI-Streaming, and two bulk endpoint descriptors, one IN
and one OUT in either order, total length within the capacity of the buffer: `parseConfigDescr`
sets `isMidiFound`, sets the MIDI IN record to the low 4 bits of the IN endpoint address with
the low 8 bits of the IN endpoint's `wMaxPacketSize` (the field `maxPktSize` is a byte; it is
`wMaxPacketSize` itself when that is below 256), the MIDI OUT record likewise from the OUT
one, records the configuration number from byte 5 of the configuration descriptor, and
raises the endpoint count by 2 (the count is a byte: by 2 exactly from a count of at most 253,
as from the count 1 of a fresh object, and modulo 256 in general). -/
theorem parseConfigDescr_midi_config (K : Header) (hK : K.distinct) (usb : USB) (fuel : Nat)
    (m : MIDI) (addr conf : Nat) (cfg ifc epIn epOut e1 e2 hdr rest : List Nat) (lo hi : Nat)
    (hcfg : wfDescr K cfg) (hcfgT : cfg.getD 1 0 = K.USB_DESCRIPTOR_CONFIGURATION)
    (hifc : wfDescr K ifc) (hifcT : isMidiInterface K ifc)
    (hin : wfDescr K epIn) (hinB : isBulkEndpoint K epIn) (hinD : isIn epIn)
    (hout : wfDescr K epOut) (houtB : isBulkEndpoint K epOut) (houtD : ¬ isIn epOut)
    (horder : (e1 = epIn ∧ e2 = epOut) ∨ (e1 = epOut ∧ e2 = epIn))
    (hfirst : usb.getConfDescr addr 0 4 conf = (0, hdr))
    (hlo : hdr[2]? = some lo) (hhi : hdr[3]? = some hi)
    (htot : lo ||| (hi <<< 8) = [cfg, ifc, e1, e2].flatten.length)
    (hcap : [cfg, ifc, e1, e2].flatten.length ≤ K.DESC_BUFF_SIZE)
    (hsecond : usb.getConfDescr addr 0 [cfg, ifc, e1, e2].flatten.length conf =
      (0, [cfg, ifc, e1, e2].flatten ++ rest))
    (hfuel : 4 < fuel) :
    ∃ m1, parseConfigDescr K usb fuel m addr conf = .ok m1 ∧
      m1.isMidiFound = true ∧
      (m1.epInfo epDataInIndex).epAddr = epIn.getD 2 0 &&& 0x0F ∧
      (m1.epInfo epDataInIndex).maxPktSize = wMaxPacketSize epIn % 256 ∧
      (wMaxPacketSize epIn < 256 → (m1.epInfo epDataInIndex).maxPktSize = wMaxPacketSize epIn) ∧
      (m1.epInfo epDataOutIndex).epAddr = epOut.getD 2 0 &&& 0x0F ∧
      (m1.epInfo epDataOutIndex).maxPktSize = wMaxPacketSize epOut % 256 ∧
      (wMaxPacketSize epOut < 256 →
        (m1.epInfo epDataOutIndex).maxPktSize = wMaxPacketSize epOut) ∧
      m1.bConfNum = cfg.getD 5 0 ∧
      m1.bNumEP = (m.bNumEP + 2) % 256 ∧
      (m.bNumEP + 2 < 256 → m1.bNumEP = m.bNumEP + 2) := by
  have hinR : isRegisteredEndpoint K epIn := ⟨hinB.1, bulk_registered _ hinB.2⟩
  have houtR : isRegisteredEndpoint K epOut := ⟨houtB.1, bulk_registered _ houtB.2⟩
  have hrIn : roleIndex true epIn = epDataInIndex := by simp [roleIndex, hinD]
  have hrOut : roleIndex true epOut = epDataOutIndex := by simp [roleIndex, houtD]
  have hnum : ((m.bNumEP + 1) % 256 + 1) % 256 = (m.bNumEP + 2) % 256 ∧
      (m.bNumEP + 2 < 256 → ((m.bNumEP + 1) % 256 + 1) % 256 = m.bNumEP + 2) := by
    constructor
    · omega
    · intro h
      omega
  have hwf : ∀ d ∈ [cfg, ifc, e1, e2], wfDescr K d := by
    intro d hd
    simp only [List.mem_cons, List.mem_singleton, List.not_mem_nil, or_false] at hd
    rcases horder with ⟨h1, h2⟩ | ⟨h1, h2⟩ <;> subst h1 <;> subst h2 <;>
      rcases hd with rfl | rfl | rfl | rfl <;> assumption
  have hparse := parseConfigDescr_descrs K usb fuel m addr conf [cfg, ifc, e1, e2] hdr rest
    lo hi hfirst hlo hhi htot hcap hsecond hwf (by simpa using hfuel)
  refine ⟨_, hparse, ?_⟩
  rcases horder with ⟨h1, h2⟩ | ⟨h1, h2⟩ <;> subst h1 <;> subst h2
  · simp only [List.foldl_cons, List.foldl_nil, descrStep_config K m false cfg hcfg hcfgT,
      descrStep_midi_interface K hK _ false ifc hifc hifcT,
      descrStep_registered K hK _ true e1 hin hinR,
      descrStep_registered K hK _ true e2 hout houtR, hrIn, hrOut]
    refine ⟨trivial, ?_, ?_, ?_, ?_, ?_, ?_, trivial, hnum⟩
    · simp [Function.update, epDataInIndex, epDataOutIndex, epRecord]
    · simp [Function.update, epDataInIndex, epDataOutIndex, epRecord]
    · intro hlt
      simp [Function.update, epDataInIndex, epDataOutIndex, epRecord, Nat.mod_eq_of_lt hlt]
    · simp [Function.update, epDataInIndex, epDataOutIndex, epRecord]
    · simp [Function.update, epDataInIndex, epDataOutIndex, epRecord]
    · intro hlt
      simp [Function.update, epDataInIndex, epDataOutIndex, epRecord, Nat.mod_eq_of_lt hlt]
  · simp only [List.foldl_cons, List.foldl_nil, descrStep_config K m false cfg hcfg hcfgT,
      descrStep_midi_interface K hK _ false ifc hifc hifcT,
      descrStep_registered K hK _ true e1 hout houtR,
      descrStep_registered K hK _ true e2 hin hinR, hrIn, hrOut]
    refine ⟨trivial, ?_, ?_, ?_, ?_, ?_, ?_, trivial, hnum⟩
    · simp [Function.update, epDataInIndex, epDataOutIndex, epRecord]
    · simp [Function.update, epDataInIndex, epDataOutIndex, epRecord]
    · intro hlt
      simp [Function.update, epDataInIndex, epDataOutIndex, epRecord, Nat.mod_eq_of_lt hlt]
    · simp [Function.update, epDataInIndex, epDataOutIndex, epRecord]
    · simp [Function.update, epDataInIndex, epDataOutIndex, epRecord]
    · intro hlt
      simp [Function.update, epDataInIndex, epDataOutIndex, epRecord, Nat.mod_eq_of_lt hlt]

/-- C8, counterexample to the claim as stated. On the high-speed MIDI configuration, which is
well formed and holds a MIDI-Streaming interface with a bulk IN and a bulk OUT endpoint, the
descriptor of the IN endpoint announces `wMaxPacketSize` = 512, and `parseConfigDescr` leaves 0
as max packet size of the MIDI IN record. -/
theorem parseConfigDescr_midi_config_truncates :
    (∀ d ∈ highSpeedConfig, wfDescr usb20 d) ∧
    isMidiInterface usb20 [9, 0x04, 0, 0, 2, 0x01, 0x03, 0, 0] ∧
    isBulkEndpoint usb20 [7, 0x05, 0x81, 0x02, 0, 2, 0] ∧ isIn [7, 0x05, 0x81, 0x02, 0, 2, 0] ∧
    isBulkEndpoint usb20 [7, 0x05, 0x02, 0x02, 0, 2, 0] ∧
    ¬ isIn [7, 0x05, 0x02, 0x02, 0, 2, 0] ∧
    highSpeedConfig.flatten.length ≤ usb20.DESC_BUFF_SIZE ∧
    wMaxPacketSize [7, 0x05, 0x81, 0x02, 0, 2, 0] = 512 ∧
    ∃ m1, parseConfigDescr usb20 (sampleUsb highSpeedConfig.flatten []) 5 sampleMidi 1 0 =
        .ok m1 ∧
      (m1.epInfo epDataInIndex).maxPktSize = 0 ∧
      (m1.epInfo epDataInIndex).maxPktSize ≠ wMaxPacketSize [7, 0x05, 0x81, 0x02, 0, 2, 0] := by
  refine ⟨by decide, by decide, by decide, by decide, by decide, by decide, by decide,
    by decide, _, rfl, by decide, by decide⟩

/-! ## Scan of a configuration without MIDI-Streaming interface -/

/-- What one descriptor other than a MIDI-Streaming interface does when the scanner is outside
a MIDI interface (`isMidi` is false). -/
theorem vendor_step (K : Header) (hK : K.distinct) (m : MIDI) (d : List Nat)
    (hwf : wfDescr K d) (hno : ¬ isMidiInterface K d) :
    ∃ m1, descrStep K (m, false) d = (m1, false) ∧ m1.isMidiFound = m.isMidiFound ∧
      m1.epInfo 0 = m.epInfo 0 ∧ m1.epInfo epDataInIndex = m.epInfo epDataInIndex ∧
      m1.epInfo epDataOutIndex = m.epInfo epDataOutIndex ∧
      (isRegisteredEndpoint K d → isIn d →
        m1.epInfo epDataInIndexVSP = epRecord (m.epInfo epDataInIndexVSP) d) ∧
      (¬ (isRegisteredEndpoint K d ∧ isIn d) →
        m1.epInfo epDataInIndexVSP = m.epInfo epDataInIndexVSP) ∧
      (isRegisteredEndpoint K d → ¬ isIn d →
        m1.epInfo epDataOutIndexVSP = epRecord (m.epInfo epDataOutIndexVSP) d) ∧
      (¬ (isRegisteredEndpoint K d ∧ ¬ isIn d) →
        m1.epInfo epDataOutIndexVSP = m.epInfo epDataOutIndexVSP) := by
  by_cases h1 : d.getD 1 0 = K.USB_DESCRIPTOR_CONFIGURATION
  · have hne : ¬ isRegisteredEndpoint K d := by
      intro h
      exact hK.2.1 (h1.symm.trans h.1)
    refine ⟨_, descrStep_config K m false d hwf h1, rfl, rfl, rfl, rfl, ?_, fun _ => rfl, ?_,
      fun _ => rfl⟩
    · intro h; exact absurd h hne
    · intro h; exact absurd h hne
  · by_cases h3 : d.getD 1 0 = K.USB_DESCRIPTOR_INTERFACE
    · have hne : ¬ isRegisteredEndpoint K d := by
        intro h
        exact hK.2.2 (h3.symm.trans h.1)
      have hstep : descrStep K (m, false) d = (m, false) := by
        rw [descrStep_interface K hK m false d hwf h3, if_neg (fun h => hno ⟨h3, h.1, h.2⟩)]
      refine ⟨_, hstep, rfl, rfl, rfl, rfl, ?_, fun _ => rfl, ?_, fun _ => rfl⟩
      · intro h; exact absurd h hne
      · intro h; exact absurd h hne
    · by_cases h4 : d.getD 1 0 = K.USB_DESCRIPTOR_ENDPOINT
      · by_cases hr : d.getD 3 0 &&& 0x02 = 2
        · have hreg : isRegisteredEndpoint K d := ⟨h4, hr⟩
          refine ⟨_, descrStep_registered K hK m false d hwf hreg, rfl, ?_, ?_, ?_, ?_, ?_, ?_,
            ?_⟩
          · by_cases hi : isIn d <;>
              simp [roleIndex, hi, Function.update, epDataInIndexVSP, epDataOutIndexVSP]
          · by_cases hi : isIn d <;>
              simp [roleIndex, hi, Function.update, epDataInIndexVSP, epDataOutIndexVSP,
                epDataInIndex]
          · by_cases hi : isIn d <;>
              simp [roleIndex, hi, Function.update, epDataInIndexVSP, epDataOutIndexVSP,
                epDataOutIndex]
          · intro _ hi
            simp [roleIndex, hi, Function.update, epDataInIndexVSP]
          · intro hn
            have hi : ¬ isIn d := fun h => hn ⟨hreg, h⟩
            simp [roleIndex, hi, Function.update, epDataInIndexVSP, epDataOutIndexVSP]
          · intro _ hi
            simp [roleIndex, hi, Function.update, epDataOutIndexVSP]
          · intro hn
            have hi : isIn d := by
              by_contra h
              exact hn ⟨hreg, h⟩
            simp [roleIndex, hi, Function.update, epDataInIndexVSP, epDataOutIndexVSP]
        · have hne : ¬ isRegisteredEndpoint K d := fun h => hr h.2
          have hstep : descrStep K (m, false) d = (m, false) := by
            rw [descrStep_endpoint K hK m false d hwf h4, if_neg hr]
          refine ⟨_, hstep, rfl, rfl, rfl, rfl, ?_, fun _ => rfl, ?_, fun _ => rfl⟩
          · intro h; exact absurd h hne
          · intro h; exact absurd h hne
      · have hne : ¬ isRegisteredEndpoint K d := fun h => h4 h.1
        refine ⟨_, descrStep_other K m false d h1 h3 h4, rfl, rfl, rfl, rfl, ?_, fun _ => rfl,
          ?_, fun _ => rfl⟩
        · intro h; exact absurd h hne
        · intro h; exact absurd h hne

/-- The scan of descriptors none of which is a MIDI-Streaming interface, started outside a MIDI
interface: `isMidiFound`, the control record and the MIDI records keep their values, and a
fallback record keeps its value when no endpoint of its direction is registered. -/
theorem vendor_fold (K : Header) (hK : K.distinct) :
    ∀ (ds : List (List Nat)) (m : MIDI), (∀ d ∈ ds, wfDescr K d) →
      (∀ d ∈ ds, ¬ isMidiInterface K d) →
      ∃ m1, ds.foldl (descrStep K) (m, false) = (m1, false) ∧
        m1.isMidiFound = m.isMidiFound ∧ m1.epInfo 0 = m.epInfo 0 ∧
        m1.epInfo epDataInIndex = m.epInfo epDataInIndex ∧
        m1.epInfo epDataOutIndex = m.epInfo epDataOutIndex ∧
        ((∀ e ∈ ds, ¬ (isRegisteredEndpoint K e ∧ isIn e)) →
          m1.epInfo epDataInIndexVSP = m.epInfo epDataInIndexVSP) ∧
        ((∀ e ∈ ds, ¬ (isRegisteredEndpoint K e ∧ ¬ isIn e)) →
          m1.epInfo epDataOutIndexVSP = m.epInfo epDataOutIndexVSP)
  | [], m, _, _ => ⟨m, rfl, rfl, rfl, rfl, rfl, fun _ => rfl, fun _ => rfl⟩
  | d :: ds, m, hwf, hno => by
    obtain ⟨m1, hstep, hf1, h01, hi1, ho1, -, hvi1, -, hvo1⟩ :=
      vendor_step K hK m d (hwf d (by simp)) (hno d (by simp))
    obtain ⟨m2, hfold, hf2, h02, hi2, ho2, hvi2, hvo2⟩ :=
      vendor_fold K hK ds m1 (fun e he => hwf e (by simp [he])) (fun e he => hno e (by simp [he]))
    refine ⟨m2, ?_, hf2.trans hf1, h02.trans h01, hi2.trans hi1, ho2.trans ho1, ?_, ?_⟩
    · rw [List.foldl_cons, hstep, hfold]
    · intro h
      rw [hvi2 (fun e he => h e (by simp [he])), hvi1 (h d (by simp))]
    · intro h
      rw [hvo2 (fun e he => h e (by simp [he])), hvo1 (h d (by simp))]

/-- C9. Scan of a configuration in which no interface descriptor has class Audio and subclass
MIDI-Streaming, from a state with `isMidiFound` false: `parseConfigDescr` runs the effect of each
descriptor in turn, leaves `isMidiFound` false, leaves the control record and the MIDI IN and
MIDI OUT records unchanged, and the step that processes a bulk endpoint descriptor writes its
address (low 4 bits) and max packet size (low 8 bits) to the fallback IN record when it is an
IN endpoint and to the fallback OUT record otherwise; the record of a bulk endpoint stays to
the end of the scan when no later endpoint of its direction is registered. -/
theorem parseConfigDescr_vendor_only (K : Header) (hK : K.distinct) (usb : USB) (fuel : Nat)
    (m : MIDI) (addr conf : Nat) (ds : List (List Nat)) (hdr rest : List Nat) (lo hi : Nat)
    (hwf : ∀ d ∈ ds, wfDescr K d) (hno : ∀ d ∈ ds, ¬ isMidiInterface K d)
    (hfirst : usb.getConfDescr addr 0 4 conf = (0, hdr))
    (hlo : hdr[2]? = some lo) (hhi : hdr[3]? = some hi)
    (htot : lo ||| (hi <<< 8) = ds.flatten.length)
    (hcap : ds.flatten.length ≤ K.DESC_BUFF_SIZE)
    (hsecond : usb.getConfDescr addr 0 ds.flatten.length conf = (0, ds.flatten ++ rest))
    (hfound : m.isMidiFound = false) (hfuel : ds.length < fuel) :
    ∃ m1, parseConfigDescr K usb fuel m addr conf = .ok m1 ∧
      m1 = (ds.foldl (descrStep K) (m, false)).1 ∧
      m1.isMidiFound = false ∧ m1.epInfo 0 = m.epInfo 0 ∧
      m1.epInfo epDataInIndex = m.epInfo epDataInIndex ∧
      m1.epInfo epDataOutIndex = m.epInfo epDataOutIndex ∧
      (∀ pre d post, ds = pre ++ d :: post → isBulkEndpoint K d →
        (isIn d →
          ((descrStep K (pre.foldl (descrStep K) (m, false)) d).1.epInfo
              epDataInIndexVSP).epAddr = d.getD 2 0 &&& 0x0F ∧
          ((descrStep K (pre.foldl (descrStep K) (m, false)) d).1.epInfo
              epDataInIndexVSP).maxPktSize = wMaxPacketSize d % 256) ∧
        (¬ isIn d →
          ((descrStep K (pre.foldl (descrStep K) (m, false)) d).1.epInfo
              epDataOutIndexVSP).epAddr = d.getD 2 0 &&& 0x0F ∧
          ((descrStep K (pre.foldl (descrStep K) (m, false)) d).1.epInfo
              epDataOutIndexVSP).maxPktSize = wMaxPacketSize d % 256)) ∧
      (∀ pre d post, ds = pre ++ d :: post → isBulkEndpoint K d → isIn d →
        (∀ e ∈ post, ¬ (isRegisteredEndpoint K e ∧ isIn e)) →
        (m1.epInfo epDataInIndexVSP).epAddr = d.getD 2 0 &&& 0x0F ∧
        (m1.epInfo epDataInIndexVSP).maxPktSize = wMaxPacketSize d % 256) ∧
      (∀ pre d post, ds = pre ++ d :: post → isBulkEndpoint K d → ¬ isIn d →
        (∀ e ∈ post, ¬ (isRegisteredEndpoint K e ∧ ¬ isIn e)) →
        (m1.epInfo epDataOutIndexVSP).epAddr = d.getD 2 0 &&& 0x0F ∧
        (m1.epInfo epDataOutIndexVSP).maxPktSize = wMaxPacketSize d % 256) := by
  have hparse := parseConfigDescr_descrs K usb fuel m addr conf ds hdr rest lo hi hfirst hlo
    hhi htot hcap hsecond hwf hfuel
  obtain ⟨m1, hfold, hf, h0, hi1, ho1, -, -⟩ := vendor_fold K hK ds m hwf hno
  have hsplit : ∀ pre d post, ds = pre ++ d :: post → isBulkEndpoint K d →
      ∃ mp mq, pre.foldl (descrStep K) (m, false) = (mp, false) ∧
        descrStep K (mp, false) d = (mq, false) ∧
        post.foldl (descrStep K) (mq, false) = (m1, false) ∧
        (isIn d → mq.epInfo epDataInIndexVSP = epRecord (mp.epInfo epDataInIndexVSP) d) ∧
        (¬ isIn d → mq.epInfo epDataOutIndexVSP = epRecord (mp.epInfo epDataOutIndexVSP) d) ∧
        ((∀ e ∈ post, ¬ (isRegisteredEndpoint K e ∧ isIn e)) →
          m1.epInfo epDataInIndexVSP = mq.epInfo epDataInIndexVSP) ∧
        ((∀ e ∈ post, ¬ (isRegisteredEndpoint K e ∧ ¬ isIn e)) →
          m1.epInfo epDataOutIndexVSP = mq.epInfo epDataOutIndexVSP) := by
    intro pre d post hds hb
    have hreg : isRegisteredEndpoint K d := ⟨hb.1, bulk_registered _ hb.2⟩
    have hmem : ∀ e, e ∈ pre ∨ e = d ∨ e ∈ post → e ∈ ds := by
      intro e he
      rw [hds]
      simp only [List.mem_append, List.mem_cons]
      exact he
    obtain ⟨mp, hpre, -⟩ := vendor_fold K hK pre m (fun e he => hwf e (hmem e (Or.inl he)))
      (fun e he => hno e (hmem e (Or.inl he)))
    obtain ⟨mq, hstep, -, -, -, -, hin, -, hout, -⟩ := vendor_step K hK mp d
      (hwf d (hmem d (Or.inr (Or.inl rfl)))) (hno d (hmem d (Or.inr (Or.inl rfl))))
    obtain ⟨mr, hpost, -, -, -, -, hkin, hkout⟩ := vendor_fold K hK post mq
      (fun e he => hwf e (hmem e (Or.inr (Or.inr he))))
      (fun e he => hno e (hmem e (Or.inr (Or.inr he))))
    have hmr : mr = m1 := by
      have h := hfold
      rw [hds, List.foldl_append, List.foldl_cons, hpre, hstep, hpost] at h
      exact (Prod.mk.inj h).1
    subst hmr
    exact ⟨mp, mq, hpre, hstep, hpost, hin hreg, hout hreg, hkin, hkout⟩
  refine ⟨m1, ?_, ?_, hf.trans hfound, h0, hi1, ho1, ?_, ?_, ?_⟩
  · rw [hparse, hfold]
  · rw [hfold]
  · intro pre d post hds hb
    obtain ⟨mp, mq, hpre, hstep, -, hin, hout, -, -⟩ := hsplit pre d post hds hb
    rw [hpre, hstep]
    constructor
    · intro hd
      rw [hin hd]
      exact ⟨rfl, rfl⟩
    · intro hd
      rw [hout hd]
      exact ⟨rfl, rfl⟩
  · intro pre d post hds hb hd hlast
    obtain ⟨mp, mq, -, -, -, hin, -, hkin, -⟩ := hsplit pre d post hds hb
    rw [hkin hlast, hin hd]
    exact ⟨rfl, rfl⟩
  · intro pre d post hds hb hd hlast
    obtain ⟨mp, mq, -, -, -, -, hout, -, hkout⟩ := hsplit pre d post hds hb
    rw [hkout hlast, hout hd]
    exact ⟨rfl, rfl⟩

/-! ## Termination of the scan -/

/-- At offset 9 of the malformed configuration the entry has length 0: the cursor does not
advance, and no amount of fuel lets the loop finish. -/
theorem scanLoop_stuck (m : MIDI) (isMidi : Bool) :
    ∀ fuel, scanLoop usb20 (zeroLengthConfig ++ List.replicate (256 - zeroLengthConfig.length) 0)
      11 fuel 9 m isMidi = .error .outOfFuel
  | 0 => rfl
  | fuel + 1 => by
    have hlen : rd (zeroLengthConfig ++ List.replicate (256 - zeroLengthConfig.length) 0) 9 =
        .ok 0 := rfl
    have htype : rd (zeroLengthConfig ++ List.replicate (256 - zeroLengthConfig.length) 0)
        (9 + 1) = .ok 0 := rfl
    have hsw : switchDescr usb20
        (zeroLengthConfig ++ List.replicate (256 - zeroLengthConfig.length) 0) 9 0 m isMidi =
        .ok (m, isMidi) := by
      simp [switchDescr, usb20]
    rw [scanLoop]
    simp only [show (9 : Nat) < 11 by norm_num, if_true, hlen, htype, hsw, bind, Except.bind,
      Nat.add_zero]
    exact scanLoop_stuck m isMidi fuel

/-- C10, the code at the failing input. The device delivers a configuration descriptor that
announces 11 bytes and is followed by an entry whose length byte is 0; both `getConfDescr` calls
succeed. The scan loop of `parseConfigDescr` never ends: whatever the fuel, the run does not
return. -/
theorem parseConfigDescr_zero_length_diverges :
    ∀ fuel, parseConfigDescr usb20 (sampleUsb zeroLengthConfig []) fuel sampleMidi 1 0 =
      .error .outOfFuel
  | 0 => rfl
  | fuel + 1 => by
    have hstuck := scanLoop_stuck { sampleMidi with bConfNum := 1 } false fuel
    have h0 : rd (zeroLengthConfig ++ List.replicate (256 - zeroLengthConfig.length) 0) 0 =
        .ok 9 := rfl
    have h1 : rd (zeroLengthConfig ++ List.replicate (256 - zeroLengthConfig.length) 0)
        (0 + 1) = .ok 2 := rfl
    have h2 : rd (zeroLengthConfig ++ List.replicate (256 - zeroLengthConfig.length) 0) 2 =
        .ok 11 := rfl
    have h3 : rd (zeroLengthConfig ++ List.replicate (256 - zeroLengthConfig.length) 0) 3 =
        .ok 0 := rfl
    have hsw : switchDescr usb20
        (zeroLengthConfig ++ List.replicate (256 - zeroLengthConfig.length) 0) 0 2 sampleMidi
        false = .ok ({ sampleMidi with bConfNum := 1 }, false) := rfl
    have htot : (11 ||| (0 <<< 8) : Nat) = 11 := rfl
    simp only [parseConfigDescr, sampleUsb, h2, h3, bind, Except.bind, htot, usb20,
      show ¬ (11 : Nat) > 256 by norm_num, ne_eq, not_true_eq_false, if_false]
    rw [scanLoop]
    simp only [show (0 : Nat) < 11 by norm_num, if_true, h0, h1, bind, Except.bind]
    have hsw2 := hsw
    simp only [usb20] at hsw2
    simp only [hsw2, Nat.zero_add]
    exact hstuck

/-! ## The theorems at concrete inputs -/

/-- Note-on `90 40 7F` and program change `C5 07 55` on cable 2. -/
theorem SendData_channel_voice_witness :
    (2 : Nat) < 16 ∧ (0x90 : Nat) < 256 ∧ (0xC5 : Nat) < 256 ∧
    SendData (sampleUsb [] []) sampleMidi 0 [0, 0, 0, 0] [0x90, 0x40, 0x7F] 2 [] =
      .ok (0, [OutCall.mk 1 0 4 [0x29, 0x90, 0x40, 0x7F]]) ∧
    SendData (sampleUsb [] []) sampleMidi 0 [0, 0, 0, 0] [0xC5, 0x07, 0x55] 2 [] =
      .ok (0, [OutCall.mk 1 0 4 [0x2C, 0xC5, 0x07, 0]]) :=
  ⟨by decide, by decide, by decide,
    (SendData_channel_voice (sampleUsb [] []) sampleMidi 0 [0, 0, 0, 0] [] [] 2 0x90 0x40 0x7F
      (by decide) (by decide)).1 (Or.inr (Or.inl rfl)),
    (SendData_channel_voice (sampleUsb [] []) sampleMidi 0 [0, 0, 0, 0] [] [] 2 0xC5 0x07 0x55
      (by decide) (by decide)).2 (Or.inl rfl)⟩

/-- Song select `F3 05`, song position `F2 10 20` and clock `F8` on cable 1. -/
theorem SendData_system_witness :
    (1 : Nat) < 16 ∧
    SendData (sampleUsb [] []) sampleMidi 0 [0, 0, 0, 0] [0xF3, 0x05, 0x66] 1 [] =
      .ok (0, [OutCall.mk 1 0 4 [0x12, 0xF3, 0x05, 0]]) ∧
    SendData (sampleUsb [] []) sampleMidi 0 [0, 0, 0, 0] [0xF2, 0x10, 0x20] 1 [] =
      .ok (0, [OutCall.mk 1 0 4 [0x13, 0xF2, 0x10, 0x20]]) ∧
    SendData (sampleUsb [] []) sampleMidi 0 [0, 0, 0, 0] [0xF8, 0x33, 0x44] 1 [] =
      .ok (0, [OutCall.mk 1 0 4 [0x1F, 0xF8, 0, 0]]) :=
  ⟨by decide,
    (SendData_system (sampleUsb [] []) sampleMidi 0 [0, 0, 0, 0] [] [] 1 0xF3 0x05 0x66
      (by decide)).1 (Or.inr rfl),
    (SendData_system (sampleUsb [] []) sampleMidi 0 [0, 0, 0, 0] [] [] 1 0xF2 0x10 0x20
      (by decide)).2.1 rfl,
    (SendData_system (sampleUsb [] []) sampleMidi 0 [0, 0, 0, 0] [] [] 1 0xF8 0x33 0x44
      (by decide)).2.2 (by decide)⟩

/-- The stream `F0 01 02 03 F7` (L = 5) on cable 1. -/
theorem SendData_sysex_segmentation_witness :
    ([0, 0, 0, 0] : List Nat).length = 4 ∧ (1 : Nat) < 16 ∧
    ([0xF0, 0x01, 0x02, 0x03, 0xF7] : List Nat)[0]? = some 0xF0 ∧
    ([0xF0, 0x01, 0x02, 0x03, 0xF7] : List Nat)[5 - 1]? = some 0xF7 ∧
    (∀ j, j < 5 - 1 → ([0xF0, 0x01, 0x02, 0x03, 0xF7] : List Nat)[j]? ≠ some 0xF7) ∧
    (∀ n, (sampleUsb [] []).outTransfer n = 0) ∧ 5 + 4 ≤ 9 ∧
    ((∃ pkts : List (List Nat),
      SendData (sampleUsb [] []) sampleMidi 9 [0, 0, 0, 0] [0xF0, 0x01, 0x02, 0x03, 0xF7] 1 [] =
        .ok (0, [] ++ pkts.map (packetCall sampleMidi)) ∧
      SendDataMulti (sampleUsb [] []) sampleMidi 9 [0, 0, 0, 0] [0xF0, 0x01, 0x02, 0x03, 0xF7]
        1 [] = .ok (0, [] ++ pkts.map (packetCall sampleMidi)) ∧
      pkts.length = (5 + 2) / 3 ∧
      (∀ j, j + 1 < pkts.length →
        ∃ p1 p2 p3, pkts[j]? = some [(1 <<< 4) ||| 0x4, p1, p2, p3]) ∧
      (∃ p1 p2 p3,
        pkts.getLast? = some [(1 <<< 4) ||| (0x4 + ((5 - 1) % 3 + 1)), p1, p2, p3]) ∧
      (0x4 + ((5 - 1) % 3 + 1) = 0x5 ∨ 0x4 + ((5 - 1) % 3 + 1) = 0x6 ∨
        0x4 + ((5 - 1) % 3 + 1) = 0x7)) ∧
    SendData (sampleUsb [] []) sampleMidi 9 [0, 0, 0, 0] [0xF0, 0x01, 0x02, 0x03, 0xF7] 1 [] =
      .ok (0, [] ++ [packetCall sampleMidi [(1 <<< 4) ||| 0x4, 0xF0, 0x01, 0x02],
        packetCall sampleMidi [(1 <<< 4) ||| 0x6, 0x03, 0xF7, 0x00]])) :=
  ⟨rfl, by decide, rfl, rfl, by decide, fun _ => rfl, by decide,
    SendData_sysex_segmentation (sampleUsb [] []) sampleMidi 9 [0, 0, 0, 0]
      [0xF0, 0x01, 0x02, 0x03, 0xF7] 1 5 [] rfl (by decide) rfl rfl (by decide)
      (fun _ => rfl) (by decide)⟩

/-- The stream `F0 01 02 03 F7` followed by two more bytes in memory, on cable 1. -/
theorem SendData_sysex_roundtrip_witness :
    ([0, 0, 0, 0] : List Nat).length = 4 ∧ (1 : Nat) < 16 ∧
    ([0xF0, 0x01, 0x02, 0x03, 0xF7, 0x55, 0xF7] : List Nat)[0]? = some 0xF0 ∧
    ([0xF0, 0x01, 0x02, 0x03, 0xF7, 0x55, 0xF7] : List Nat)[5 - 1]? = some 0xF7 ∧
    (∀ j, j < 5 - 1 → ([0xF0, 0x01, 0x02, 0x03, 0xF7, 0x55, 0xF7] : List Nat)[j]? ≠ some 0xF7) ∧
    (∀ n, (sampleUsb [] []).outTransfer n = 0) ∧ 5 + 4 ≤ 9 ∧
    ∃ pkts : List (List Nat),
      SendData (sampleUsb [] []) sampleMidi 9 [0, 0, 0, 0]
        [0xF0, 0x01, 0x02, 0x03, 0xF7, 0x55, 0xF7] 1 [] =
          .ok (0, [] ++ pkts.map (packetCall sampleMidi)) ∧
      sysexReceive pkts = ([0xF0, 0x01, 0x02, 0x03, 0xF7, 0x55, 0xF7] : List Nat).take 5 ∧
      (∃ last, pkts.getLast? = some last ∧ last.length = 4 ∧
        last[(5 - 1) % 3 + 1]? = some 0xF7 ∧
        ∀ j, (5 - 1) % 3 + 1 < j → j < 4 → last[j]? = some 0) ∧
      (∀ data1 : List Nat,
        data1.take 5 = ([0xF0, 0x01, 0x02, 0x03, 0xF7, 0x55, 0xF7] : List Nat).take 5 →
        SendData (sampleUsb [] []) sampleMidi 9 [0, 0, 0, 0] data1 1 [] =
          SendData (sampleUsb [] []) sampleMidi 9 [0, 0, 0, 0]
            [0xF0, 0x01, 0x02, 0x03, 0xF7, 0x55, 0xF7] 1 []) ∧
      SendData (sampleUsb [] []) sampleMidi 9 [0, 0, 0, 0]
        (([0xF0, 0x01, 0x02, 0x03, 0xF7, 0x55, 0xF7] : List Nat).take 5) 1 [] =
        SendData (sampleUsb [] []) sampleMidi 9 [0, 0, 0, 0]
          [0xF0, 0x01, 0x02, 0x03, 0xF7, 0x55, 0xF7] 1 [] :=
  ⟨rfl, by decide, rfl, rfl, by decide, fun _ => rfl, by decide,
    SendData_sysex_roundtrip (sampleUsb [] []) sampleMidi 9 [0, 0, 0, 0]
      [0xF0, 0x01, 0x02, 0x03, 0xF7, 0x55, 0xF7] 1 5 [] rfl (by decide) rfl rfl (by decide)
      (fun _ => rfl) (by decide)⟩

/-- A stream of 11 bytes (4 packets) on cable 0: with a transport whose second transfer fails
with status 7, and with a transport that succeeds. -/
theorem SendDataMulti_stops_on_error_witness :
    ([0, 0, 0, 0] : List Nat).length = 4 ∧ 1 ≤ 11 ∧
    ([0xF0, 1, 2, 3, 4, 5, 6, 7, 8, 9, 0xF7] : List Nat)[11 - 1]? = some 0xF7 ∧
    (∀ j, j < 11 - 1 → ([0xF0, 1, 2, 3, 4, 5, 6, 7, 8, 9, 0xF7] : List Nat)[j]? ≠ some 0xF7) ∧
    11 + 4 ≤ 15 ∧ 1 ≤ 2 ∧ 2 ≤ (11 + 2) / 3 ∧
    (∀ j, j < 2 - 1 → (failingUsb 1 7).outTransfer (([] : List OutCall).length + j) = 0) ∧
    (failingUsb 1 7).outTransfer (([] : List OutCall).length + (2 - 1)) = 7 ∧ (7 : Nat) ≠ 0 ∧
    (∃ calls : List OutCall,
      SendDataMulti (failingUsb 1 7) sampleMidi 15 [0, 0, 0, 0]
        [0xF0, 1, 2, 3, 4, 5, 6, 7, 8, 9, 0xF7] 0 [] = .ok (7, [] ++ calls) ∧
      calls.length = 2) ∧
    (∀ j, j < (11 + 2) / 3 →
      (sampleUsb [] []).outTransfer (([] : List OutCall).length + j) = 0) ∧
    (∃ calls : List OutCall,
      SendDataMulti (sampleUsb [] []) sampleMidi 15 [0, 0, 0, 0]
        [0xF0, 1, 2, 3, 4, 5, 6, 7, 8, 9, 0xF7] 0 [] = .ok (0, [] ++ calls) ∧
      calls.length = (11 + 2) / 3 ∧
      ((0 : Nat) < 16 → ∃ p1 p2 p3, calls.getLast? =
        some (packetCall sampleMidi [(0 <<< 4) ||| (0x4 + ((11 - 1) % 3 + 1)), p1, p2, p3]))) :=
  ⟨rfl, by decide, rfl, by decide, by decide, by decide, by decide, by decide, rfl,
    by decide,
    (SendDataMulti_stops_on_error (failingUsb 1 7) sampleMidi 15 [0, 0, 0, 0]
      [0xF0, 1, 2, 3, 4, 5, 6, 7, 8, 9, 0xF7] 0 11 [] rfl (by decide) rfl
      (by decide) (by decide)).1 2 7 (by decide) (by decide) (by decide) rfl (by decide),
    fun _ _ => rfl,
    (SendDataMulti_stops_on_error (sampleUsb [] []) sampleMidi 15 [0, 0, 0, 0]
      [0xF0, 1, 2, 3, 4, 5, 6, 7, 8, 9, 0xF7] 0 11 [] rfl (by decide) rfl
      (by decide) (by decide)).2 (fun _ _ => rfl)⟩

/-- The received buffers `09 90 40 7F` and `00 00 00 00`. -/
theorem RcvData_decode_witness :
    sampleMidi.bPollEnable = true ∧
    (sampleUsb [] [0x09, 0x90, 0x40, 0x7F]).inTransfer sampleMidi.bAddress
      (sampleMidi.epInfo epDataInIndex).epAddr (sampleMidi.epInfo epDataInIndex).maxPktSize =
      (0, 4, [0x09, 0x90, 0x40, 0x7F]) ∧
    RcvData (sampleUsb [] [0x09, 0x90, 0x40, 0x7F]) sampleMidi [0xAA, 0xBB, 0xCC] =
      .ok (true, [0x90, 0x40, 0x7F]) ∧
    (sampleUsb [] [0, 0, 0, 0]).inTransfer sampleMidi.bAddress
      (sampleMidi.epInfo epDataInIndex).epAddr (sampleMidi.epInfo epDataInIndex).maxPktSize =
      (0, 4, [0, 0, 0, 0]) ∧
    RcvData (sampleUsb [] [0, 0, 0, 0]) sampleMidi [0xAA, 0xBB, 0xCC] =
      .ok (false, [0xAA, 0xBB, 0xCC]) :=
  ⟨rfl, rfl,
    (RcvData_decode (sampleUsb [] [0x09, 0x90, 0x40, 0x7F]) sampleMidi 4 0x09 0x90 0x40 0x7F
      0xAA 0xBB 0xCC [] [] rfl rfl).2 (by decide),
    rfl,
    (RcvData_decode (sampleUsb [] [0, 0, 0, 0]) sampleMidi 4 0 0 0 0
      0xAA 0xBB 0xCC [] [] rfl rfl).1.mpr ⟨rfl, rfl, rfl, rfl⟩⟩

/-- Note-on `90 40 7F` on cable 2, sent and received back. -/
theorem SendData_RcvData_roundtrip_witness :
    (0x90 : Nat) < 256 ∧ 0x80 ≤ (0x90 : Nat) ∧ (0x90 : Nat) ≠ 0xF0 ∧
    ∃ h r1 r2,
      SendData (sampleUsb [] []) sampleMidi 0 [0, 0, 0, 0] (0x90 :: 0x40 :: 0x7F :: []) 2 [] =
        .ok ((sampleUsb [] []).outTransfer ([] : List OutCall).length,
          [] ++ [packetCall sampleMidi [h, 0x90, r1, r2]]) ∧
      (∀ (dev : USB) (rx : MIDI) (n o0 o1 o2 : Nat) (junk orest : List Nat),
        rx.bPollEnable = true →
        dev.inTransfer rx.bAddress (rx.epInfo epDataInIndex).epAddr
          (rx.epInfo epDataInIndex).maxPktSize = (0, n, [h, 0x90, r1, r2] ++ junk) →
        RcvData dev rx (o0 :: o1 :: o2 :: orest) = .ok (true, 0x90 :: r1 :: r2 :: orest)) ∧
      (((0x90 : Nat) >>> 4 = 0x8 ∨ (0x90 : Nat) >>> 4 = 0x9 ∨ (0x90 : Nat) >>> 4 = 0xA ∨
        (0x90 : Nat) >>> 4 = 0xB ∨ (0x90 : Nat) >>> 4 = 0xE ∨ (0x90 : Nat) = 0xF2) →
          r1 = 0x40 ∧ r2 = 0x7F) ∧
      (((0x90 : Nat) >>> 4 = 0xC ∨ (0x90 : Nat) >>> 4 = 0xD ∨ (0x90 : Nat) = 0xF1 ∨
        (0x90 : Nat) = 0xF3) → r1 = 0x40 ∧ r2 = 0) ∧
      (0xF4 ≤ (0x90 : Nat) → r1 = 0 ∧ r2 = 0) ∧
      ∀ rest1 : List Nat,
        SendData (sampleUsb [] []) sampleMidi 0 [0, 0, 0, 0] (0x90 :: r1 :: r2 :: rest1) 2 [] =
          .ok ((sampleUsb [] []).outTransfer ([] : List OutCall).length,
            [] ++ [packetCall sampleMidi [h, 0x90, r1, r2]]) :=
  ⟨by decide, by decide, by decide,
    SendData_RcvData_roundtrip (sampleUsb [] []) sampleMidi 0 [0, 0, 0, 0] [] [] 2 0x90 0x40
      0x7F (by decide) (by decide) (by decide)⟩

/-- The full-speed MIDI configuration `midiConfig`, IN endpoint first. -/
theorem parseConfigDescr_midi_config_witness :
    usb20.distinct ∧
    wfDescr usb20 [9, 0x02, 32, 0, 1, 1, 0, 0x80, 50] ∧
    wfDescr usb20 [9, 0x04, 0, 0, 2, 0x01, 0x03, 0, 0] ∧
    isMidiInterface usb20 [9, 0x04, 0, 0, 2, 0x01, 0x03, 0, 0] ∧
    wfDescr usb20 [7, 0x05, 0x81, 0x02, 64, 0, 0] ∧
    isBulkEndpoint usb20 [7, 0x05, 0x81, 0x02, 64, 0, 0] ∧ isIn [7, 0x05, 0x81, 0x02, 64, 0, 0] ∧
    wfDescr usb20 [7, 0x05, 0x02, 0x02, 64, 0, 0] ∧
    isBulkEndpoint usb20 [7, 0x05, 0x02, 0x02, 64, 0, 0] ∧
    ¬ isIn [7, 0x05, 0x02, 0x02, 64, 0, 0] ∧
    midiConfig.flatten.length ≤ usb20.DESC_BUFF_SIZE ∧
    ∃ m1, parseConfigDescr usb20 (sampleUsb midiConfig.flatten []) 5 sampleMidi 1 0 = .ok m1 ∧
      m1.isMidiFound = true ∧
      (m1.epInfo epDataInIndex).epAddr = ([7, 0x05, 0x81, 0x02, 64, 0, 0] : List Nat).getD 2 0
        &&& 0x0F ∧
      (m1.epInfo epDataInIndex).maxPktSize = wMaxPacketSize [7, 0x05, 0x81, 0x02, 64, 0, 0]
        % 256 ∧
      (wMaxPacketSize [7, 0x05, 0x81, 0x02, 64, 0, 0] < 256 →
        (m1.epInfo epDataInIndex).maxPktSize = wMaxPacketSize [7, 0x05, 0x81, 0x02, 64, 0, 0]) ∧
      (m1.epInfo epDataOutIndex).epAddr = ([7, 0x05, 0x02, 0x02, 64, 0, 0] : List Nat).getD 2 0
        &&& 0x0F ∧
      (m1.epInfo epDataOutIndex).maxPktSize = wMaxPacketSize [7, 0x05, 0x02, 0x02, 64, 0, 0]
        % 256 ∧
      (wMaxPacketSize [7, 0x05, 0x02, 0x02, 64, 0, 0] < 256 →
        (m1.epInfo epDataOutIndex).maxPktSize =
          wMaxPacketSize [7, 0x05, 0x02, 0x02, 64, 0, 0]) ∧
      m1.bConfNum = ([9, 0x02, 32, 0, 1, 1, 0, 0x80, 50] : List Nat).getD 5 0 ∧
      m1.bNumEP = (sampleMidi.bNumEP + 2) % 256 ∧
      (sampleMidi.bNumEP + 2 < 256 → m1.bNumEP = sampleMidi.bNumEP + 2) :=
  ⟨by decide, by decide, by decide, by decide, by decide, by decide, by decide, by decide,
    by decide, by decide, by decide,
    parseConfigDescr_midi_config usb20 (by decide) (sampleUsb midiConfig.flatten []) 5
      sampleMidi 1 0 [9, 0x02, 32, 0, 1, 1, 0, 0x80, 50] [9, 0x04, 0, 0, 2, 0x01, 0x03, 0, 0]
      [7, 0x05, 0x81, 0x02, 64, 0, 0] [7, 0x05, 0x02, 0x02, 64, 0, 0]
      [7, 0x05, 0x81, 0x02, 64, 0, 0] [7, 0x05, 0x02, 0x02, 64, 0, 0]
      (midiConfig.flatten ++ List.replicate (256 - midiConfig.flatten.length) 0)
      (List.replicate (256 - midiConfig.flatten.length) 0) 32 0
      (by decide) (by decide) (by decide) (by decide) (by decide) (by decide) (by decide)
      (by decide) (by decide) (by decide) (Or.inl ⟨rfl, rfl⟩) rfl rfl rfl (by decide)
      (by decide) rfl (by decide)⟩

/-- The vendor-specific configuration `vendorConfig`. -/
theorem parseConfigDescr_vendor_only_witness :
    usb20.distinct ∧ (∀ d ∈ vendorConfig, wfDescr usb20 d) ∧
    (∀ d ∈ vendorConfig, ¬ isMidiInterface usb20 d) ∧
    vendorConfig.flatten.length ≤ usb20.DESC_BUFF_SIZE ∧ sampleMidi.isMidiFound = false ∧
    isBulkEndpoint usb20 [7, 0x05, 0x81, 0x02, 64, 0, 0] ∧ isIn [7, 0x05, 0x81, 0x02, 64, 0, 0] ∧
    isBulkEndpoint usb20 [7, 0x05, 0x02, 0x02, 32, 0, 0] ∧
    ¬ isIn [7, 0x05, 0x02, 0x02, 32, 0, 0] ∧
    ∃ m1, parseConfigDescr usb20 (sampleUsb vendorConfig.flatten []) 5 sampleMidi 1 0 = .ok m1 ∧
      m1.isMidiFound = false ∧ m1.epInfo 0 = sampleMidi.epInfo 0 ∧
      m1.epInfo epDataInIndex = sampleMidi.epInfo epDataInIndex ∧
      m1.epInfo epDataOutIndex = sampleMidi.epInfo epDataOutIndex ∧
      (m1.epInfo epDataInIndexVSP).epAddr = 1 ∧ (m1.epInfo epDataInIndexVSP).maxPktSize = 64 ∧
      (m1.epInfo epDataOutIndexVSP).epAddr = 2 ∧ (m1.epInfo epDataOutIndexVSP).maxPktSize = 32 :=
  have h := parseConfigDescr_vendor_only usb20 (by decide) (sampleUsb vendorConfig.flatten []) 5
    sampleMidi 1 0 vendorConfig
    (vendorConfig.flatten ++ List.replicate (256 - vendorConfig.flatten.length) 0)
    (List.replicate (256 - vendorConfig.flatten.length) 0) 32 0
    (by decide) (by decide) rfl rfl rfl (by decide) (by decide) rfl rfl (by decide)
  ⟨by decide, by decide, by decide, by decide, rfl, by decide, by decide, by decide, by decide,
    h.choose, h.choose_spec.1, h.choose_spec.2.2.1, h.choose_spec.2.2.2.1,
    h.choose_spec.2.2.2.2.1, h.choose_spec.2.2.2.2.2.1,
    (h.choose_spec.2.2.2.2.2.2.2.1
      [[9, 0x02, 32, 0, 1, 1, 0, 0x80, 50], [9, 0x04, 0, 0, 2, 0xFF, 0, 0, 0]]
      [7, 0x05, 0x81, 0x02, 64, 0, 0] [[7, 0x05, 0x02, 0x02, 32, 0, 0]] rfl (by decide)
      (by decide) (by decide)).1,
    (h.choose_spec.2.2.2.2.2.2.2.1
      [[9, 0x02, 32, 0, 1, 1, 0, 0x80, 50], [9, 0x04, 0, 0, 2, 0xFF, 0, 0, 0]]
      [7, 0x05, 0x81, 0x02, 64, 0, 0] [[7, 0x05, 0x02, 0x02, 32, 0, 0]] rfl (by decide)
      (by decide) (by decide)).2,
    (h.choose_spec.2.2.2.2.2.2.2.2
      [[9, 0x02, 32, 0, 1, 1, 0, 0x80, 50], [9, 0x04, 0, 0, 2, 0xFF, 0, 0, 0],
        [7, 0x05, 0x81, 0x02, 64, 0, 0]]
      [7, 0x05, 0x02, 0x02, 32, 0, 0] [] rfl (by decide) (by decide) (by decide)).1,
    (h.choose_spec.2.2.2.2.2.2.2.2
      [[9, 0x02, 32, 0, 1, 1, 0, 0x80, 50], [9, 0x04, 0, 0, 2, 0xFF, 0, 0, 0],
        [7, 0x05, 0x81, 0x02, 64, 0, 0]]
      [7, 0x05, 0x02, 0x02, 32, 0, 0] [] rfl (by decide) (by decide) (by decide)).2⟩

/-! ## Bounds of the scan -/

/-- C11, the code at the failing input. The device announces a configuration of 300 bytes; the
length is clamped to the capacity 256 of the buffer, which receives 256 bytes. The scan reaches
offset 255, below the clamped length, and reads the descriptor type at offset 256, outside the
buffer, whenever the fuel allows three iterations. -/
theorem parseConfigDescr_reads_past_buffer :
    (truncatedConfig ++ List.replicate (256 - truncatedConfig.length) 0).length =
      usb20.DESC_BUFF_SIZE ∧
    rd (truncatedConfig ++ List.replicate (256 - truncatedConfig.length) 0) 255 = .ok 7 ∧
    rd (truncatedConfig ++ List.replicate (256 - truncatedConfig.length) 0) (255 + 1) =
      .error .outOfBounds ∧
    ∀ fuel, parseConfigDescr usb20 (sampleUsb truncatedConfig []) (fuel + 1 + 1 + 1) sampleMidi
      1 0 = .error .outOfBounds := by
  refine ⟨rfl, rfl, rfl, ?_⟩
  intro fuel
  have h2 : rd (truncatedConfig ++ List.replicate (256 - truncatedConfig.length) 0) 2 =
      .ok 0x2C := rfl
  have h3 : rd (truncatedConfig ++ List.replicate (256 - truncatedConfig.length) 0) 3 =
      .ok 1 := rfl
  have htot : (0x2C ||| (1 <<< 8) : Nat) = 300 := rfl
  have h0 : rd (truncatedConfig ++ List.replicate (256 - truncatedConfig.length) 0) 0 =
      .ok 9 := rfl
  have h1 : rd (truncatedConfig ++ List.replicate (256 - truncatedConfig.length) 0) (0 + 1) =
      .ok 2 := rfl
  have hsw0 : switchDescr usb20
      (truncatedConfig ++ List.replicate (256 - truncatedConfig.length) 0) 0 2 sampleMidi
      false = .ok ({ sampleMidi with bConfNum := 1 }, false) := rfl
  have h9 : rd (truncatedConfig ++ List.replicate (256 - truncatedConfig.length) 0) (0 + 9) =
      .ok 246 := rfl
  have h10 : rd (truncatedConfig ++ List.replicate (256 - truncatedConfig.length) 0)
      (0 + 9 + 1) = .ok 0x24 := rfl
  have hsw9 : switchDescr usb20
      (truncatedConfig ++ List.replicate (256 - truncatedConfig.length) 0) (0 + 9) 0x24
      { sampleMidi with bConfNum := 1 } false = .ok ({ sampleMidi with bConfNum := 1 }, false) :=
    rfl
  have h255 : rd (truncatedConfig ++ List.replicate (256 - truncatedConfig.length) 0)
      (0 + 9 + 246) = .ok 7 := rfl
  have h256 : rd (truncatedConfig ++ List.replicate (256 - truncatedConfig.length) 0)
      (0 + 9 + 246 + 1) = .error .outOfBounds := rfl
  simp only [usb20] at hsw0 hsw9
  simp only [parseConfigDescr, sampleUsb, h2, h3, bind, Except.bind, htot, usb20,
    show (300 : Nat) > 256 by norm_num, ne_eq, not_true_eq_false, if_false, if_true]
  rw [scanLoop]
  simp only [show (0 : Nat) < 256 by norm_num, if_true, h0, h1, hsw0, bind, Except.bind]
  rw [scanLoop]
  simp only [show (0 + 9 : Nat) < 256 by norm_num, if_true, h9, h10, hsw9, bind, Except.bind]
  rw [scanLoop]
  simp only [show (0 + 9 + 246 : Nat) < 256 by norm_num, if_true, h255, h256, bind,
    Except.bind]

/-! ## Registration of endpoints -/

/-- C12, the code at the failing input. The configuration holds a vendor-specific interface with
one interrupt IN endpoint (transfer type 0b11, address 0x83, 8-byte packets). The scan, started
with endpoint count 1 and an empty fallback IN record, registers the endpoint: it writes the
record (3, 8) to the fallback IN role and raises the endpoint count to 2. -/
theorem parseConfigDescr_registers_interrupt :
    (∀ d ∈ interruptConfig, wfDescr usb20 d) ∧
    ([7, 0x05, 0x83, 0x03, 8, 0, 10] : List Nat).getD 1 0 = usb20.USB_DESCRIPTOR_ENDPOINT ∧
    ([7, 0x05, 0x83, 0x03, 8, 0, 10] : List Nat).getD 3 0 &&& 0x03 = 0x03 ∧
    ¬ isBulkEndpoint usb20 [7, 0x05, 0x83, 0x03, 8, 0, 10] ∧
    sampleMidi.bNumEP = 1 ∧ (sampleMidi.epInfo epDataInIndexVSP).epAddr = 0 ∧
    (sampleMidi.epInfo epDataInIndexVSP).maxPktSize = 0 ∧
    ∃ m1, parseConfigDescr usb20 (sampleUsb interruptConfig.flatten []) 4 sampleMidi 1 0 =
        .ok m1 ∧
      m1.bNumEP = 2 ∧ (m1.epInfo epDataInIndexVSP).epAddr = 3 ∧
      (m1.epInfo epDataInIndexVSP).maxPktSize = 8 :=
  ⟨by decide, by decide, by decide, by decide, rfl, rfl, rfl, _, rfl, by decide, by decide,
    by decide⟩

/-! ## Connection setup -/

/-- C13, the code at the failing input. Address probe and assignment succeed, the
`getConfDescr` requests of the device fail, so that the scan leaves the configuration number at
0: `Init` releases the address and disables polling, and returns the status 0. -/
theorem Init_device_not_found_returns_zero :
    ∃ m1 w1, Init usb20 usbErrors stalledUsb (sampleHost deviceDescriptor) 4 freshMidi emptyWorld
        0 1 false = .ok (0, m1, w1) ∧
      m1.bConfNum = 0 ∧ m1.bAddress = 0 ∧ m1.bPollEnable = false ∧ w1.pool = [] ∧
      w1.scans = [0] :=
  ⟨_, _, rfl, by decide, by decide, by decide, by decide, by decide⟩

/-- C14, the code at the failing input. The pool hands out address 1, `setAddr` succeeds, and
`GetUsbDevicePtr` does not find the record of address 1: `Init` returns the non-zero status
`USB_ERROR_ADDRESS_NOT_FOUND_IN_POOL` with address 1 still in the object and still allocated
in the pool. -/
theorem Init_leaks_address :
    freshMidi.bAddress = 0 ∧ usbErrors.USB_ERROR_ADDRESS_NOT_FOUND_IN_POOL ≠ 0 ∧
    ∃ m1 w1, Init usb20 usbErrors (sampleUsb midiConfig.flatten [])
        { sampleHost deviceDescriptor with
          GetUsbDevicePtr := fun a => if a = 0 then some (UsbDevice.mk false) else none }
        4 freshMidi emptyWorld 0 1 false =
          .ok (usbErrors.USB_ERROR_ADDRESS_NOT_FOUND_IN_POOL, m1, w1) ∧
      m1.bAddress = 1 ∧ w1.pool = [1] :=
  ⟨rfl, by decide, _, _, rfl, by decide, by decide⟩

/-- C19, the code at the failing input. Steps 1 to 4 succeed, the second `setEpInfoEntry` call,
which registers the full endpoint table, returns the status 5, and `setConf` succeeds: `Init`
returns 0 with polling enabled and the address kept. -/
theorem Init_ignores_bind_failure :
    ∃ m1 w1, Init usb20 usbErrors (sampleUsb midiConfig.flatten [])
        { sampleHost deviceDescriptor with setEpInfoEntry := fun n => if n = 1 then 5 else 0 }
        5 freshMidi emptyWorld 0 1 false = .ok (0, m1, w1) ∧
      w1.binds.map (fun b => (b.addr, b.epcount, b.status)) = [(1, 1, 0), (1, 3, 5)] ∧
      m1.bPollEnable = true ∧ m1.bAddress = 1 ∧ w1.pool = [1] :=
  ⟨_, _, rfl, by decide, by decide, by decide, by decide⟩

/-- C20, the code at the failing input. The device descriptor holds `idVendor` = 0x0499 (bytes
0x99, 0x04) and `idProduct` = 0x101F (bytes 0x1F, 0x10): `Init` stores 0x9D00 as vendor ID and
0x2F00 as product ID, the sums of the two bytes shifted left by 8. -/
theorem Init_vid_pid_precedence :
    deviceDescriptor.getD 8 0 + 256 * deviceDescriptor.getD 9 0 = 0x0499 ∧
    deviceDescriptor.getD 10 0 + 256 * deviceDescriptor.getD 11 0 = 0x101F ∧
    ∃ m1 w1, Init usb20 usbErrors (sampleUsb midiConfig.flatten [])
        (sampleHost deviceDescriptor) 5 freshMidi emptyWorld 0 1 false = .ok (0, m1, w1) ∧
      m1.vid = 0x9D00 ∧ m1.pid = 0x2F00 :=
  ⟨by decide, by decide, _, _, rfl, by decide, by decide⟩

/-- C15, the code at the failing input. A first `Init` on a MIDI device sets `isMidiFound` and
the configuration number 1; `Release` keeps both. A second `Init`, on a vendor-specific device,
therefore ends with `isMidiFound` set and without fallback promotion: the MIDI OUT record still
holds the packet size 64 of the first device, where the OUT endpoint of the attached device has
32. On a fresh object the same device gives `isMidiFound` false and the promoted size 32. -/
theorem Init_after_Release_keeps_discovery_state :
    ∃ m1 w1 m3 w3 m4 w4,
      Init usb20 usbErrors (sampleUsb midiConfig.flatten []) (sampleHost deviceDescriptor) 5
        freshMidi emptyWorld 0 1 false = .ok (0, m1, w1) ∧
      (Release m1 w1).1.isMidiFound = true ∧ (Release m1 w1).1.bConfNum = 1 ∧
      (Release m1 w1).1.bNumEP = 1 ∧
      Init usb20 usbErrors (sampleUsb vendorConfig.flatten []) (sampleHost deviceDescriptor) 5
        (Release m1 w1).1 (Release m1 w1).2 0 1 false = .ok (0, m3, w3) ∧
      m3.isMidiFound = true ∧ (m3.epInfo epDataOutIndex).maxPktSize = 64 ∧
      (m3.epInfo epDataOutIndexVSP).maxPktSize = 32 ∧
      Init usb20 usbErrors (sampleUsb vendorConfig.flatten []) (sampleHost deviceDescriptor) 5
        freshMidi emptyWorld 0 1 false = .ok (0, m4, w4) ∧
      m4.isMidiFound = false ∧ (m4.epInfo epDataOutIndex).maxPktSize = 32 :=
  ⟨_, _, _, _, _, _, rfl, by decide, by decide, by decide, rfl, by decide, by decide,
    by decide, rfl, by decide, by decide⟩

/-! ## The phases of `Init` -/

/-- When `Init` reaches the loop over the configurations, the configuration count is a byte, no
configuration has been scanned, `rcode` is 0, and the discovery state is the one `Init` was
called with. -/
theorem probeAndAssign_inr (E : ErrorCodes) (host : Host) (m : MIDI) (w : World)
    (parent port : Nat) (lowspeed : Bool) (m4 : MIDI) (w6 : World) (n rcode : Nat)
    (h : probeAndAssign E host m w parent port lowspeed = .ok (.inr (m4, w6, n, rcode))) :
    n ≤ 255 ∧ w6.scans = w.scans ∧ rcode = 0 ∧ m4.bPollEnable = m.bPollEnable ∧
      m4.bNumEP = m.bNumEP ∧ m4.isMidiFound = m.isMidiFound ∧ m4.bConfNum = m.bConfNum := by
  unfold probeAndAssign at h
  simp only [bind, Except.bind, devDesc_bMaxPacketSize0, devDesc_bNumConfigurations] at h
  repeat' split at h
  all_goals first
    | (simp only [Except.ok.injEq, Sum.inr.injEq, Prod.mk.injEq, reduceCtorEq] at h
       obtain ⟨rfl, rfl, rfl, rfl⟩ := h
       refine ⟨by omega, rfl, by simp_all, rfl, rfl, rfl, rfl⟩)
    | (simp at h)

theorem Init_of_probe (K : Header) (E : ErrorCodes) (usb : USB) (host : Host) (fuel : Nat)
    (m : MIDI) (w : World) (parent port : Nat) (lowspeed : Bool) (m4 : MIDI) (w6 : World)
    (n rcode : Nat)
    (hprobe : probeAndAssign E host m w parent port lowspeed = .ok (.inr (m4, w6, n, rcode))) :
    Init K E usb host fuel m w parent port lowspeed =
      match scanConfigs K usb fuel n fuel 0 m4 w6 with
      | .ok (m5, w7) => .ok (bindAndConfigure host rcode m5 w7)
      | .error e => .error e := by
  simp only [Init, hprobe, bind, Except.bind]
  cases scanConfigs K usb fuel n fuel 0 m4 w6 <;> rfl

theorem promoteFallback_found (m : MIDI) (h : m.isMidiFound = true) : promoteFallback m = m := by
  simp [promoteFallback, h]

theorem promoteFallback_not_found (m : MIDI) (h : m.isMidiFound = false) :
    ((promoteFallback m).epInfo epDataInIndex).epAddr = (m.epInfo epDataInIndexVSP).epAddr ∧
    ((promoteFallback m).epInfo epDataInIndex).maxPktSize =
      (m.epInfo epDataInIndexVSP).maxPktSize ∧
    ((promoteFallback m).epInfo epDataOutIndex).epAddr = (m.epInfo epDataOutIndexVSP).epAddr ∧
    ((promoteFallback m).epInfo epDataOutIndex).maxPktSize =
      (m.epInfo epDataOutIndexVSP).maxPktSize ∧
    (promoteFallback m).epInfo epDataInIndexVSP = m.epInfo epDataInIndexVSP ∧
    (promoteFallback m).epInfo epDataOutIndexVSP = m.epInfo epDataOutIndexVSP ∧
    (promoteFallback m).epInfo 0 = m.epInfo 0 := by
  simp [promoteFallback, h, Function.update, epDataInIndex, epDataOutIndex, epDataInIndexVSP,
    epDataOutIndexVSP]

theorem promoteFallback_frame (m : MIDI) :
    (promoteFallback m).bAddress = m.bAddress ∧ (promoteFallback m).bNumEP = m.bNumEP ∧
    (promoteFallback m).bConfNum = m.bConfNum ∧
    (promoteFallback m).isMidiFound = m.isMidiFound := by
  unfold promoteFallback
  split <;> exact ⟨rfl, rfl, rfl, rfl⟩

/-- With a configuration number other than 0, the end of `Init` passes the table after fallback
promotion to `setEpInfoEntry` and leaves it in the object. -/
theorem bindAndConfigure_bound (host : Host) (rcode : Nat) (ms : MIDI) (ws : World)
    (hconf : ms.bConfNum ≠ 0) :
    (bindAndConfigure host rcode ms ws).2.2.binds = ws.binds ++
        [BindCall.mk (promoteFallback ms).bAddress (promoteFallback ms).bNumEP
          (promoteFallback ms).epInfo (host.setEpInfoEntry ws.binds.length)] ∧
      (bindAndConfigure host rcode ms ws).2.1.epInfo = (promoteFallback ms).epInfo := by
  unfold bindAndConfigure
  rw [if_neg hconf]
  by_cases hset :
      host.setConf (promoteFallback ms).bAddress 0 (promoteFallback ms).bConfNum = 0
  · simp only [hset, ne_eq, not_true_eq_false, if_false, and_self]
  · simp only [hset, ne_eq, not_false_eq_true, if_true, Release, FreeAddress, and_self]

/-! ## Fallback promotion -/

/-- C16. Fallback promotion. When `Init` reaches the loop over the configurations and that loop
leaves the object `ms`, whose configuration number is not 0, `Init` returns, and the table
`T` that it passes to the second `setEpInfoEntry` call, which is also the table of the object
on return, is this: if `isMidiFound` is false in `ms`, the MIDI IN record of `T` has the
address and max packet size of the fallback IN record of `ms` and the MIDI OUT record those of
the fallback OUT record; if `isMidiFound` is true, the MIDI IN and MIDI OUT records of `T` are
those of `ms`. -/
theorem Init_fallback_promotion (K : Header) (E : ErrorCodes) (usb : USB) (host : Host)
    (fuel : Nat) (m : MIDI) (w : World) (parent port : Nat) (lowspeed : Bool) (m4 ms : MIDI)
    (w6 ws : World) (n rcode : Nat)
    (hprobe : probeAndAssign E host m w parent port lowspeed = .ok (.inr (m4, w6, n, rcode)))
    (hscan : scanConfigs K usb fuel n fuel 0 m4 w6 = .ok (ms, ws))
    (hconf : ms.bConfNum ≠ 0) :
    ∃ rc mf wf T,
      Init K E usb host fuel m w parent port lowspeed = .ok (rc, mf, wf) ∧
      wf.binds = ws.binds ++
        [BindCall.mk ms.bAddress ms.bNumEP T (host.setEpInfoEntry ws.binds.length)] ∧
      mf.epInfo = T ∧
      (ms.isMidiFound = false →
        (T epDataInIndex).epAddr = (ms.epInfo epDataInIndexVSP).epAddr ∧
        (T epDataInIndex).maxPktSize = (ms.epInfo epDataInIndexVSP).maxPktSize ∧
        (T epDataOutIndex).epAddr = (ms.epInfo epDataOutIndexVSP).epAddr ∧
        (T epDataOutIndex).maxPktSize = (ms.epInfo epDataOutIndexVSP).maxPktSize) ∧
      (ms.isMidiFound = true →
        T epDataInIndex = ms.epInfo epDataInIndex ∧
        T epDataOutIndex = ms.epInfo epDataOutIndex) := by
  have hinit := Init_of_probe K E usb host fuel m w parent port lowspeed m4 w6 n rcode hprobe
  rw [hscan] at hinit
  obtain ⟨hA, hN, hC, -⟩ := promoteFallback_frame ms
  have hT : (ms.isMidiFound = false →
        ((promoteFallback ms).epInfo epDataInIndex).epAddr =
          (ms.epInfo epDataInIndexVSP).epAddr ∧
        ((promoteFallback ms).epInfo epDataInIndex).maxPktSize =
          (ms.epInfo epDataInIndexVSP).maxPktSize ∧
        ((promoteFallback ms).epInfo epDataOutIndex).epAddr =
          (ms.epInfo epDataOutIndexVSP).epAddr ∧
        ((promoteFallback ms).epInfo epDataOutIndex).maxPktSize =
          (ms.epInfo epDataOutIndexVSP).maxPktSize) ∧
      (ms.isMidiFound = true →
        (promoteFallback ms).epInfo epDataInIndex = ms.epInfo epDataInIndex ∧
        (promoteFallback ms).epInfo epDataOutIndex = ms.epInfo epDataOutIndex) := by
    constructor
    · intro h
      obtain ⟨h1, h2, h3, h4, -⟩ := promoteFallback_not_found ms h
      exact ⟨h1, h2, h3, h4⟩
    · intro h
      rw [promoteFallback_found ms h]
      exact ⟨rfl, rfl⟩
  refine ⟨(bindAndConfigure host rcode ms ws).1, (bindAndConfigure host rcode ms ws).2.1,
    (bindAndConfigure host rcode ms ws).2.2, (promoteFallback ms).epInfo, ?_, ?_, ?_, hT.1,
    hT.2⟩
  · rw [hinit]
  · rw [(bindAndConfigure_bound host rcode ms ws hconf).1, hA, hN]
  · exact (bindAndConfigure_bound host rcode ms ws hconf).2

/-! ## The endpoint table after a successful `Init` -/

/-- The loop of `Init`, entered at index `i`, scans `c` configurations in order and stops:
after each scan but the last the endpoint count is at most 1, and when indices remain unscanned
the endpoint count after the last scan is above 1. -/
theorem scanConfigs_spec (K : Header) (usb : USB) (fuel n : Nat) (hn : n ≤ 255) :
    ∀ (lf i : Nat) (m : MIDI) (w : World) (mf : MIDI) (wf : World),
      scanConfigs K usb fuel n lf i m w = .ok (mf, wf) → i ≤ n →
      ∃ c, i + c ≤ n ∧ wf.scans = w.scans ++ List.range' i c ∧ wf.pool = w.pool ∧
        wf.binds = w.binds ∧ scanSeq K usb fuel i c m = .ok mf ∧
        (∀ j, 0 < j → j < c → ∀ mj, scanSeq K usb fuel i j m = .ok mj → mj.bNumEP ≤ 1) ∧
        (i + c < n → 0 < c ∧ mf.bNumEP > 1)
  | 0, _, _, _, _, _, h, _ => by simp [scanConfigs] at h
  | lf + 1, i, m, w, mf, wf, h, hi => by
    rw [scanConfigs] at h
    by_cases hlt : i < n
    · simp only [hlt, if_true, bind, Except.bind] at h
      cases hp : parseConfigDescr K usb fuel m m.bAddress i with
      | error e =>
        rw [hp] at h
        simp at h
      | ok m1 =>
        rw [hp] at h
        simp only at h
        by_cases hep : m1.bNumEP > 1
        · simp only [hep, if_true, Except.ok.injEq, Prod.mk.injEq] at h
          obtain ⟨rfl, rfl⟩ := h
          refine ⟨1, by omega, by simp [List.range'], rfl, rfl, ?_, ?_, ?_⟩
          · simp [scanSeq, hp, bind, Except.bind]
          · intro j h0 h1
            omega
          · intro _
            exact ⟨by omega, hep⟩
        · simp only [hep, if_false] at h
          have hmod : (i + 1) % 256 = i + 1 := Nat.mod_eq_of_lt (by omega)
          rw [hmod] at h
          obtain ⟨c, hc, hscans, hpool, hbinds, hseq, hmid, hlast⟩ :=
            scanConfigs_spec K usb fuel n hn lf (i + 1) m1 _ mf wf h (by omega)
          refine ⟨c + 1, by omega, ?_, hpool, hbinds, ?_, ?_, ?_⟩
          · rw [hscans]
            simp [List.range']
          · simp [scanSeq, hp, bind, Except.bind, hseq]
          · intro j h0 h1 mj hj
            cases j with
            | zero => omega
            | succ j =>
              simp only [scanSeq, hp, bind, Except.bind] at hj
              cases j with
              | zero =>
                simp only [scanSeq, Except.ok.injEq] at hj
                subst hj
                omega
              | succ j => exact hmid (j + 1) (by omega) (by omega) mj hj
          · intro hrem
            have := hlast (by omega)
            exact ⟨by omega, this.2⟩
    · simp only [hlt, if_false, Except.ok.injEq, Prod.mk.injEq] at h
      obtain ⟨rfl, rfl⟩ := h
      refine ⟨0, by omega, by simp [List.range'], rfl, rfl, rfl, ?_, ?_⟩
      · intro j h0 h1
        omega
      · intro hrem
        omega

theorem bindAndConfigure_scans (host : Host) (rcode : Nat) (ms : MIDI) (ws : World) :
    (bindAndConfigure host rcode ms ws).2.2.scans = ws.scans := by
  unfold bindAndConfigure
  by_cases hconf : ms.bConfNum = 0
  · rw [if_pos hconf]
    rfl
  · rw [if_neg hconf]
    by_cases hset :
        host.setConf (promoteFallback ms).bAddress 0 (promoteFallback ms).bConfNum = 0
    · simp only [hset, ne_eq, not_true_eq_false, if_false]
    · simp only [hset, ne_eq, not_false_eq_true, if_true, Release, FreeAddress]

/-- C18 (as amended). When `Init` reaches the loop over the configurations, with the declared
configuration count `n`, and returns, it has called the scanner for the indices 0, 1, ...,
`c - 1` in order, for some `c` not above `n`. The endpoint count was at most 1 after each scan
but the last, and `Init` skips remaining indices (`c < n`) only when the endpoint count after the
last scan is above 1, that is, as soon as one endpoint beyond the control endpoint has been
discovered. In particular, when the first configuration leaves the endpoint count at 2, no
further index is scanned. -/
theorem Init_scans_until_endpoint_found (K : Header) (E : ErrorCodes) (usb : USB) (host : Host)
    (fuel : Nat) (m : MIDI) (w : World) (parent port : Nat) (lowspeed : Bool) (m4 : MIDI)
    (w6 : World) (n rcode rc : Nat) (mf : MIDI) (wf : World)
    (hprobe : probeAndAssign E host m w parent port lowspeed = .ok (.inr (m4, w6, n, rcode)))
    (hinit : Init K E usb host fuel m w parent port lowspeed = .ok (rc, mf, wf)) :
    ∃ c ms, c ≤ n ∧ wf.scans = w.scans ++ List.range c ∧
      scanSeq K usb fuel 0 c m4 = .ok ms ∧
      (∀ j, 0 < j → j < c → ∀ mj, scanSeq K usb fuel 0 j m4 = .ok mj → mj.bNumEP ≤ 1) ∧
      (c < n → 0 < c ∧ ms.bNumEP > 1) ∧
      (∀ m1, 0 < n → parseConfigDescr K usb fuel m4 m4.bAddress 0 = .ok m1 → m1.bNumEP = 2 →
        c = 1) := by
  obtain ⟨hn, hscans0, -⟩ := probeAndAssign_inr E host m w parent port lowspeed m4 w6 n rcode
    hprobe
  have h := Init_of_probe K E usb host fuel m w parent port lowspeed m4 w6 n rcode hprobe
  rw [hinit] at h
  cases hs : scanConfigs K usb fuel n fuel 0 m4 w6 with
  | error e =>
    rw [hs] at h
    simp at h
  | ok r =>
    obtain ⟨ms, ws⟩ := r
    rw [hs] at h
    simp only [Except.ok.injEq] at h
    obtain ⟨c, hc, hsc, -, -, hseq, hmid, hlast⟩ :=
      scanConfigs_spec K usb fuel n hn fuel 0 m4 w6 ms ws hs (by omega)
    have hwf : wf.scans = ws.scans := by
      have := bindAndConfigure_scans host rcode ms ws
      rw [← h] at this
      exact this
    refine ⟨c, ms, by omega, ?_, hseq, hmid, ?_, ?_⟩
    · rw [hwf, hsc, hscans0, List.range_eq_range']
    · intro hlt
      exact hlast (by omega)
    · intro m1 hpos hp1 h2
      have hc0 : 0 < c := by
        by_contra hz
        have := (hlast (by omega)).1
        omega
      by_contra hne
      have h1 : scanSeq K usb fuel 0 1 m4 = .ok m1 := by
        simp [scanSeq, hp1, bind, Except.bind]
      have := hmid 1 (by omega) (by omega) m1 h1
      omega

/-- C18, counterexample to the claim as stated. The device declares two configurations; the first
holds exactly one bulk endpoint, so that the endpoint count after its scan is 2, not above 2.
`Init` calls the scanner for index 0 only: index 1 is skipped. -/
theorem Init_skips_after_one_endpoint :
    twoConfigDescriptor.getD 17 0 = 2 ∧
    ∃ m1 mf wf,
      parseConfigDescr usb20 twoConfigUsb 6 { freshMidi with bAddress := 1 } 1 0 = .ok m1 ∧
      m1.bNumEP = 2 ∧
      Init usb20 usbErrors twoConfigUsb (sampleHost twoConfigDescriptor) 6 freshMidi emptyWorld
        0 1 false = .ok (0, mf, wf) ∧
      wf.scans = [0] ∧ mf.bNumEP = 2 :=
  ⟨by decide, _, _, _, rfl, by decide, rfl, by decide, by decide⟩

/-- `Init` on the vendor-specific device: the fallback records (1, 64) and (2, 32) are promoted
before the table is bound. -/
theorem Init_fallback_promotion_witness :
    ∃ m4 w6 n rcode ms ws,
      probeAndAssign usbErrors (sampleHost deviceDescriptor) freshMidi emptyWorld 0 1 false =
        .ok (.inr (m4, w6, n, rcode)) ∧
      scanConfigs usb20 (sampleUsb vendorConfig.flatten []) 5 n 5 0 m4 w6 = .ok (ms, ws) ∧
      ms.bConfNum ≠ 0 ∧ ms.isMidiFound = false ∧
      (ms.epInfo epDataInIndexVSP).epAddr = 1 ∧ (ms.epInfo epDataOutIndexVSP).maxPktSize = 32 ∧
      ∃ rc mf wf T,
        Init usb20 usbErrors (sampleUsb vendorConfig.flatten []) (sampleHost deviceDescriptor) 5
          freshMidi emptyWorld 0 1 false = .ok (rc, mf, wf) ∧
        wf.binds = ws.binds ++ [BindCall.mk ms.bAddress ms.bNumEP T
          ((sampleHost deviceDescriptor).setEpInfoEntry ws.binds.length)] ∧
        mf.epInfo = T ∧
        (ms.isMidiFound = false →
          (T epDataInIndex).epAddr = (ms.epInfo epDataInIndexVSP).epAddr ∧
          (T epDataInIndex).maxPktSize = (ms.epInfo epDataInIndexVSP).maxPktSize ∧
          (T epDataOutIndex).epAddr = (ms.epInfo epDataOutIndexVSP).epAddr ∧
          (T epDataOutIndex).maxPktSize = (ms.epInfo epDataOutIndexVSP).maxPktSize) ∧
        (ms.isMidiFound = true →
          T epDataInIndex = ms.epInfo epDataInIndex ∧
          T epDataOutIndex = ms.epInfo epDataOutIndex) :=
  ⟨_, _, _, _, _, _, rfl, rfl, by decide, by decide, by decide, by decide,
    Init_fallback_promotion usb20 usbErrors (sampleUsb vendorConfig.flatten [])
      (sampleHost deviceDescriptor) 5 freshMidi emptyWorld 0 1 false _ _ _ _ _ _ rfl rfl
      (by decide)⟩

/-- `Init` on the device with two configurations, the first of which holds one bulk endpoint. -/
theorem Init_scans_until_endpoint_found_witness :
    ∃ m4 w6 n rcode rc mf wf,
      probeAndAssign usbErrors (sampleHost twoConfigDescriptor) freshMidi emptyWorld 0 1 false =
        .ok (.inr (m4, w6, n, rcode)) ∧
      Init usb20 usbErrors twoConfigUsb (sampleHost twoConfigDescriptor) 6 freshMidi emptyWorld
        0 1 false = .ok (rc, mf, wf) ∧
      n = 2 ∧ wf.scans = [0] ∧
      ∃ c ms, c ≤ n ∧ wf.scans = emptyWorld.scans ++ List.range c ∧
        scanSeq usb20 twoConfigUsb 6 0 c m4 = .ok ms ∧
        (∀ j, 0 < j → j < c → ∀ mj, scanSeq usb20 twoConfigUsb 6 0 j m4 = .ok mj →
          mj.bNumEP ≤ 1) ∧
        (c < n → 0 < c ∧ ms.bNumEP > 1) ∧
        (∀ m1, 0 < n → parseConfigDescr usb20 twoConfigUsb 6 m4 m4.bAddress 0 = .ok m1 →
          m1.bNumEP = 2 → c = 1) :=
  ⟨_, _, _, _, _, _, _, rfl, rfl, by decide, by decide,
    Init_scans_until_endpoint_found usb20 usbErrors twoConfigUsb (sampleHost twoConfigDescriptor)
      6 freshMidi emptyWorld 0 1 false _ _ _ _ _ _ _ rfl rfl⟩

end USBH_MIDI
